import Mathlib

/-!
# Verification of `src/utils/data_generator.py`

A shallow embedding of the synthetic data generation module.  Numbers are
modelled as rationals (`ℚ`), timestamps as rational "days since an epoch"
(one unit = one day, fractions are times of day).

The process-wide numpy random source (`np.random`) is modelled as an explicit
state `NpRandom`: a tape of draw results together with a position.  One tape
cell is consumed per random draw; the cell's value is interpreted according to
the kind of draw (a uniform `[0,1)` variate for `random`/`randint`/`uniform`/
`choice`, a standard normal variate for `normal`).  `np.random.seed s` is
modelled as replacing the state by `⟨mt s, 0⟩`, where `mt : ℕ → ℕ → ℚ` (the
family of post-seed tapes of the underlying Mersenne-Twister generator) is
passed to the generators as an explicit parameter: every theorem below holds
for an arbitrary such family, and hypotheses state the `[0,1)` range of
uniform draws where a claim needs it.

`np.sin` composed with the constant `2 * np.pi` is modelled as an explicit
function parameter `sin2pi : ℚ → ℚ` (`sin2pi x` stands for `sin (2πx)`);
every claim about the seasonal component is structural in it.  Wall-clock
readings (`datetime.now()`) are modelled by a parameter `clock : ℕ → ℚ`
giving the successive readings taken during one call.
-/

namespace DataGen

/-- State of the shared `np.random` generator: the tape of remaining draw
results installed by the last seeding, and the number of draws consumed. -/
structure NpRandom where
  tape : ℕ → ℚ
  pos : ℕ

/-- Consume one draw from the shared random source. -/
def NpRandom.next (g : NpRandom) : ℚ × NpRandom :=
  (g.tape g.pos, ⟨g.tape, g.pos + 1⟩)

/-- `np.random.seed s`: reset the shared source to the tape determined by the
seed `s` (the tape family `mt` models the seeded Mersenne Twister). -/
def npSeed (mt : ℕ → ℕ → ℚ) (s : ℕ) : NpRandom :=
  ⟨mt s, 0⟩

/-- `np.random.normal mu sigma`: one draw, interpreted as `mu + sigma * z`
with `z` the tape value (a standard normal variate). -/
def npNormal (mu sigma : ℚ) (g : NpRandom) : ℚ × NpRandom :=
  let p := g.next
  (mu + sigma * p.1, p.2)

/-- `np.random.randint lo hi` (scalar): one draw `u ∈ [0,1)`, giving the
integer `lo + ⌊u * (hi - lo)⌋`, which ranges over `[lo, hi)`. -/
def npRandint (lo hi : ℤ) (g : NpRandom) : ℤ × NpRandom :=
  let p := g.next
  (lo + Int.floor (p.1 * ((hi : ℚ) - (lo : ℚ))), p.2)

/-- `np.random.uniform a b`: one draw `u ∈ [0,1)`, giving `a + u * (b - a)`. -/
def npUniform (a b : ℚ) (g : NpRandom) : ℚ × NpRandom :=
  let p := g.next
  (a + p.1 * (b - a), p.2)

/-- `np.random.random ()`: one uniform `[0,1)` draw. -/
def npRandomFloat (g : NpRandom) : ℚ × NpRandom :=
  g.next

/-- Index selected by `np.random.choice(..., p := ws)` for the uniform draw
`u`: numpy takes `cdf.searchsorted(u, side := right)`, the first index whose
cumulative weight exceeds `u`. -/
def cumIndex : List ℚ → ℚ → ℕ
  | [], _ => 0
  | w :: ws, u => if u < w then 0 else cumIndex ws (u - w) + 1

/-- Value selected by a weighted `np.random.choice` from `xs` for draw `u`. -/
def weightedChoice {α : Type} [Inhabited α] (xs : List α) (ws : List ℚ) (u : ℚ) : α :=
  xs.getD (cumIndex ws u) default

/-- Value selected by a uniform `np.random.choice` from `xs` for draw `u`:
numpy draws the index `⌊u * |xs|⌋`. -/
def uniformChoice {α : Type} [Inhabited α] (xs : List α) (u : ℚ) : α :=
  xs.getD (Int.floor (u * (xs.length : ℚ))).toNat default

/-- `pd.date_range (start := start) (end := stop) (freq := step)` for a fixed
step width in days: the inclusive sequence `start, start + step, …` of points
`≤ stop`; empty when `start > stop`.  (Week anchoring of the `W` code is not
modelled; no claim depends on it.) -/
def dateRange (start stop step : ℚ) : List ℚ :=
  if 0 < step ∧ start ≤ stop then
    (List.range ((Int.floor ((stop - start) / step)).toNat + 1)).map
      (fun k : ℕ => start + step * (k : ℚ))
  else []

/-- `pd.date_range (start := start) (periods := n) (freq := MS)`: `n`
month-start points on or after `start`.  Months are modelled as 30 days; no
claim depends on the actual point values, only on their count. -/
def dateRangeMS (start : ℚ) (periods : ℕ) : List ℚ :=
  (List.range periods).map (fun k : ℕ => 30 * (Int.ceil (start / 30) : ℚ) + 30 * (k : ℚ))

/-- Frequency step in days for the pandas frequency codes used by the module;
any other code makes `pd.date_range` raise `ValueError`. -/
def parseFreq : String → Except String ℚ
  | "D" => .ok 1
  | "H" => .ok (1 / 24)
  | "W" => .ok 7
  | f => .error ("Invalid frequency: " ++ f)

/-- `pandas.Timestamp.dayofyear`, over a modelled 365-day calendar: the claims
use it structurally only. -/
def dayofyear (t : ℚ) : ℕ :=
  (Int.floor t % 365).toNat + 1

/-- Zero-padded decimal rendering, as in `f-strings` such as `TXN_{i:06d}`. -/
def padNum (width : ℕ) (i : ℕ) : String :=
  let s := toString i
  String.mk (List.replicate (width - s.length) '0') ++ s

/-- One row of the table returned by `generate_time_series_data`
(`src/utils/data_generator.py`, lines 50-56). -/
structure TsRow where
  date : ℚ
  category : String
  value : ℚ
  transactions : ℤ
  users : ℤ
  deriving DecidableEq, Repr

/-- One row of the table returned by `generate_sales_data`
(`src/utils/data_generator.py`, lines 83-96). -/
structure SalesRow where
  transaction_id : String
  date : ℚ
  product : String
  region : String
  quantity : ℤ
  unit_price : ℚ
  payment_method : String
  total_amount : ℚ
  discount : ℚ
  final_amount : ℚ
  deriving DecidableEq, Repr

/-- One row of the table returned by `generate_customer_data`
(`src/utils/data_generator.py`, lines 117-126). -/
structure CustomerRow where
  customer_id : String
  signup_date : ℚ
  segment : String
  status : String
  country : String
  total_purchases : ℤ
  lifetime_value : ℚ
  average_order_value : ℚ
  deriving DecidableEq, Repr

/-- One row of the table returned by `generate_metrics_data`
(`src/utils/data_generator.py`, lines 160-167). -/
structure MetricsRow where
  date : ℚ
  revenue : ℚ
  orders : ℤ
  new_customers : ℤ
  returning_customers : ℤ
  conversion_rate : ℚ
  deriving DecidableEq, Repr

/-- One row of the table returned by `generate_cohort_data`
(`src/utils/data_generator.py`, lines 196-202). -/
structure CohortRow where
  cohort : ℚ
  month : ℕ
  cohort_size : ℤ
  retained_users : ℤ
  retention_rate : ℚ
  deriving DecidableEq, Repr

/-!
## Port of numpy's introspective argsort (`kind = quicksort`)

`df.sort_values` (line 98 of the source) uses the default `quicksort` kind.
For a column without missing values pandas's `nargsort` computes the
descending indexer as `reverse (map (n-1-j) (argsort (reverse column)))`.
The inner `argsort` is numpy's introspective sort acting on an index array
`tosort` (here a `List ℕ`) ordered by the keys `v`: median-of-3 quicksort
partitioning down to segments of at most 16 elements (`SMALL_QUICKSORT = 15`),
insertion sort on small segments, and heapsort on a segment once the depth
budget `2 * ⌊log₂ n⌋` is exhausted (checked when a deferred segment is taken
up).  The port follows that routine step by step.  So that the kernel can
evaluate the sort, each loop recurses structurally on an explicit step
budget; every budget passed below is large enough that the budget-exhausted
base cases (which mirror the loop-exit behavior) are never reached, exactly
as the sentinel elements make the scan loops stop inside the segment. -/

/-- `v[tosort[p]]`: sort key of the index stored at position `p`. -/
def keyAt (v : List ℚ) (t : List ℕ) (p : ℕ) : ℚ :=
  v.getD (t.getD p 0) 0

/-- `INTP_SWAP`: exchange the indices at positions `i` and `j`. -/
def lswap (t : List ℕ) (i j : ℕ) : List ℕ :=
  (t.set i (t.getD j 0)).set j (t.getD i 0)

/-- `do ++pi; while (v[*pi] < vp)` with `k` positions left before `r`: first
position whose key is not below the pivot (the pivot parked at `r - 1` stops
the scan before `k` runs out). -/
def scanUpAux (v : List ℚ) (t : List ℕ) (vp : ℚ) : ℕ → ℕ → ℕ
  | p, 0 => p
  | p, k + 1 => if keyAt v t p < vp then scanUpAux v t vp (p + 1) k else p

/-- The up-scan from position `p` bounded by `r`. -/
def scanUp (v : List ℚ) (t : List ℕ) (vp : ℚ) (p r : ℕ) : ℕ :=
  scanUpAux v t vp p (r - p)

/-- `do --pj; while (vp < v[*pj])` with `k` positions left before `l`: first
position whose key is not above the pivot (the median-of-3 element left at
`l` stops the scan before `k` runs out). -/
def scanDownAux (v : List ℚ) (t : List ℕ) (vp : ℚ) : ℕ → ℕ → ℕ
  | p, 0 => p
  | p, k + 1 => if vp < keyAt v t p then scanDownAux v t vp (p - 1) k else p

/-- The down-scan from position `p` bounded by `l`. -/
def scanDown (v : List ℚ) (t : List ℕ) (vp : ℚ) (p l : ℕ) : ℕ :=
  scanDownAux v t vp p (p - l)

/-- The partition exchange loop of numpy's quicksort: starting from
`pi = l, pj = r - 1`, repeatedly advance both scans and exchange, until the
scans cross; returns the final array and the crossing position.  The scans
shrink `pj - pi` by at least two per round, so a budget of `r` rounds is
never exhausted. -/
def partLoop (v : List ℚ) (vp : ℚ) (l r : ℕ) : ℕ → List ℕ → ℕ → ℕ → List ℕ × ℕ
  | 0, t, pi, _pj => (t, scanUp v t vp (pi + 1) r)
  | fuel + 1, t, pi, pj =>
    let pi' := scanUp v t vp (pi + 1) r
    let pj' := scanDown v t vp (pj - 1) l
    if pi' < pj' then partLoop v vp l r fuel (lswap t pi' pj') pi' pj'
    else (t, pi')

/-- `if (LT(v[*a], v[*b])) INTP_SWAP(*a, *b)`: conditional exchange used by
the median-of-3 pivot selection. -/
def swapIfLt (v : List ℚ) (t : List ℕ) (a b : ℕ) : List ℕ :=
  if keyAt v t a < keyAt v t b then lswap t a b else t

/-- The median-of-3 pre-swaps on positions `pm = l + (r-l)/2`, `l`, `r`,
leaving the median key at `pm`. -/
def median3 (v : List ℚ) (t : List ℕ) (l r : ℕ) : List ℕ :=
  swapIfLt v
    (swapIfLt v (swapIfLt v t (l + (r - l) / 2) l) r (l + (r - l) / 2))
    (l + (r - l) / 2) l

/-- One partition step on the segment `[l, r]`: median-of-3 pivot selection,
pivot parked at `r - 1`, exchange loop, pivot restored at the crossing
position.  Returns the new array and the pivot position. -/
def partitionSeg (v : List ℚ) (t : List ℕ) (l r : ℕ) : List ℕ × ℕ :=
  let t3 := median3 v t l r
  let vp := keyAt v t3 (l + (r - l) / 2)
  let res := partLoop v vp l r r (lswap t3 (l + (r - l) / 2) (r - 1)) l (r - 1)
  (lswap res.1 res.2 (r - 1), res.2)

/-- numpy's insertion sort of the index segment `[l, r]` by their keys: the
standard stable insertion sort, expressed on the extracted slice. -/
def insertionSeg (v : List ℚ) (t : List ℕ) (l r : ℕ) : List ℕ :=
  if r ≤ l then t
  else
    t.take l
      ++ List.insertionSort (fun a b => v.getD a 0 ≤ v.getD b 0)
          ((t.drop l).take (r + 1 - l))
      ++ t.drop (r + 1)

/-- The sift-down loop of numpy's `aheapsort` on the 1-indexed heap of size
`n` stored at positions `off, off+1, …`: walk the larger-child chain moving
children up, then drop the saved index `tmp` at the final hole `i`.  The
child position `j` doubles each round, so a budget of `n + 1` rounds is
never exhausted. -/
def siftDown (v : List ℚ) : ℕ → List ℕ → ℕ → ℕ → ℕ → ℕ → ℕ → List ℕ
  | 0, t, off, tmp, i, _j, _n => t.set (off + i - 1) tmp
  | fuel + 1, t, off, tmp, i, j, n =>
    if 1 ≤ j ∧ j ≤ n then
      let j' := if j < n ∧ keyAt v t (off + j - 1) < keyAt v t (off + j) then j + 1 else j
      if v.getD tmp 0 < keyAt v t (off + j' - 1) then
        siftDown v fuel (t.set (off + i - 1) (t.getD (off + j' - 1) 0)) off tmp j' (2 * j') n
      else t.set (off + i - 1) tmp
    else t.set (off + i - 1) tmp

/-- Heap construction pass: `for (l = n >> 1; l > 0; --l)` sift `a[l]` down. -/
def heapifyLoop (v : List ℚ) (off n : ℕ) : List ℕ → ℕ → List ℕ
  | t, 0 => t
  | t, k + 1 =>
    heapifyLoop v off n
      (siftDown v (n + 1) t off (t.getD (off + k) 0) (k + 1) (2 * (k + 1)) n) k

/-- Extraction pass: `for (; n > 1;)` move the root behind the shrinking heap
and sift the former last element down from the root. -/
def extractLoop (v : List ℚ) (off : ℕ) : List ℕ → ℕ → List ℕ
  | t, 0 => t
  | t, 1 => t
  | t, m + 2 =>
    extractLoop v off
      (siftDown v (m + 2) (t.set (off + m + 1) (t.getD off 0)) off
        (t.getD (off + m + 1) 0) 1 2 (m + 1))
      (m + 1)

/-- numpy's `aheapsort` applied to the segment `[l, r]` of the index array. -/
def aheapsortSeg (v : List ℚ) (t : List ℕ) (l r : ℕ) : List ℕ :=
  extractLoop v l (heapifyLoop v l (r + 1 - l) t ((r + 1 - l) / 2)) (r + 1 - l)

/-- The segment recursion of numpy's introspective argsort.  `popped = true`
marks a segment taken from the deferred-work stack, which is heapsorted when
its depth budget is negative; the segment kept in the inner loop continues
without that check.  Segments of more than 16 elements are partitioned, the
larger half deferred; small segments are insertion sorted.  Segment sizes
shrink strictly, so a round budget equal to the array size is never
exhausted. -/
def aqsSeg (v : List ℚ) : ℕ → List ℕ → ℕ → ℕ → ℤ → Bool → List ℕ
  | 0, t, l, r, _depth, _popped => insertionSeg v t l r
  | fuel + 1, t, l, r, depth, popped =>
    if popped = true ∧ depth < 0 then aheapsortSeg v t l r
    else if l + 15 < r then
      let res := partitionSeg v t l r
      if r - res.2 > res.2 - l then
        aqsSeg v fuel (aqsSeg v fuel res.1 l (res.2 - 1) (depth - 1) false)
          (res.2 + 1) r (depth - 1) true
      else
        aqsSeg v fuel (aqsSeg v fuel res.1 (res.2 + 1) r (depth - 1) false)
          l (res.2 - 1) (depth - 1) true
    else insertionSeg v t l r

/-- `npy_get_msb`: position of the highest set bit, `⌊log₂ n⌋` (0 for 0),
written with a structural step budget so the kernel can evaluate it. -/
def log2Aux : ℕ → ℕ → ℕ
  | 0, _ => 0
  | fuel + 1, n => if 2 ≤ n then log2Aux fuel (n / 2) + 1 else 0

/-- `np.argsort (kind = quicksort)` of a key list, as the identity index list
run through the introspective sort with depth budget `2 * npy_get_msb n`. -/
def npArgsortQuicksort (v : List ℚ) : List ℕ :=
  if v.length = 0 then []
  else
    aqsSeg v v.length (List.range v.length) 0 (v.length - 1)
      (2 * (log2Aux v.length v.length : ℤ)) true

/-- The descending indexer computed by pandas's `nargsort` for a column
without missing values: reverse the column, argsort it ascending, map the
positions back, and reverse the result. -/
def pandasDescArgsort (col : List ℚ) : List ℕ :=
  ((npArgsortQuicksort col.reverse).map (fun j => col.length - 1 - j)).reverse

/-!
## The five generators

Counts are modelled as `ℤ` (Python ints): a negative count given to a Python
`range` yields an empty iteration, while a negative size given to a numpy
sampling routine or to `pd.date_range (periods := ·)` raises `ValueError`;
the generators below reproduce exactly the checks those library calls make.
`int (max 0 x)` truncations are modelled as `⌊x⌋` on the clamped (hence
non-negative) value, where truncation and floor agree. -/

/-- `generate_time_series_data`, inner loop over `categories` (lines 42-56):
per row the draws are the noise normal, the `transactions` and the `users`
randint, in that order; the trend factor is `len(data) * 0.5` at the moment
the row is appended. -/
def tsInner (sin2pi : ℚ → ℚ) (date : ℚ) :
    List String → List TsRow → NpRandom → List TsRow × NpRandom
  | [], rows, g => (rows, g)
  | c :: cs, rows, g =>
    let trend : ℚ := (rows.length : ℚ) * (1 / 2)
    let seasonal : ℚ := 100 * sin2pi ((dayofyear date : ℚ) / 365)
    let noisep := npNormal 0 50 g
    let value : ℚ := 1000 + trend + seasonal + noisep.1
    let trp := npRandint 50 500 noisep.2
    let usp := npRandint 10 200 trp.2
    tsInner sin2pi date cs
      (rows ++ [{ date := date, category := c, value := max 0 value,
                  transactions := trp.1, users := usp.1 }]) usp.2

/-- `generate_time_series_data`, outer loop over `dates` (line 41). -/
def tsOuter (sin2pi : ℚ → ℚ) :
    List ℚ → List String → List TsRow → NpRandom → List TsRow × NpRandom
  | [], _, rows, g => (rows, g)
  | d :: ds, cats, rows, g =>
    let res := tsInner sin2pi d cats rows g
    tsOuter sin2pi ds cats res.1 res.2

/-- `generate_time_series_data` (lines 14-58): date range between the given
or defaulted bounds, `Category_1 … Category_n` labels, one row per
(date, category) pair. -/
def generate_time_series_data (sin2pi : ℚ → ℚ) (clock : ℕ → ℚ)
    (start_date end_date : Option ℚ) (freq : String) (num_categories : ℤ)
    (g : NpRandom) : Except String (List TsRow × NpRandom) :=
  let s := start_date.getD (clock 0 - 90)
  let e := end_date.getD (clock 1)
  match parseFreq freq with
  | .error m => .error m
  | .ok step =>
    .ok (tsOuter sin2pi (dateRange s e step)
      ((List.range num_categories.toNat).map (fun i => "Category_" ++ toString (i + 1)))
      [] g)

/-- Row `i` of `generate_sales_data` for `n` requested records (lines 83-96).
The source builds the table column by column with vectorized draws, so draw
`i` of the `c`-th drawing column reads tape cell `c * n + i`; the column
order is: date offsets, products, regions, quantities, unit prices, payment
methods, and (after the `total_amount` column is computed) discounts. -/
def mkSalesRow (clock : ℕ → ℚ) (products regions payment_methods : List String)
    (tape : ℕ → ℚ) (n i : ℕ) : SalesRow :=
  let quantity : ℤ := 1 + Int.floor (tape (3 * n + i) * 9)
  let unit_price : ℚ := 10 + tape (4 * n + i) * 490
  let total_amount : ℚ := (quantity : ℚ) * unit_price
  let discount : ℚ :=
    weightedChoice [0, 1/20, 1/10, 3/20, 1/5] [1/2, 1/5, 3/20, 1/10, 1/20]
      (tape (6 * n + i))
  { transaction_id := "TXN_" ++ padNum 6 i
    date := clock i - ((Int.floor (tape i * 365) : ℤ) : ℚ)
    product := uniformChoice products (tape (n + i))
    region := uniformChoice regions (tape (2 * n + i))
    quantity := quantity
    unit_price := unit_price
    payment_method := uniformChoice payment_methods (tape (5 * n + i))
    total_amount := total_amount
    discount := discount
    final_amount := total_amount * (1 - discount) }

/-- `generate_sales_data` (lines 61-98): seeds the shared source with 42,
builds the record columns, derives the amount columns, and returns the rows
reordered by the pandas descending indexer on the `date` column. -/
def generate_sales_data (mt : ℕ → ℕ → ℚ) (clock : ℕ → ℚ)
    (num_records num_products num_regions : ℤ) (_gIn : NpRandom) :
    Except String (List SalesRow × NpRandom) :=
  let g := npSeed mt 42
  let products :=
    (List.range num_products.toNat).map (fun i => "Product_" ++ toString (i + 1))
  let regions :=
    (List.range num_regions.toNat).map (fun i => "Region_" ++ toString (i + 1))
  let payment_methods := ["Credit Card", "Debit Card", "PayPal", "Bank Transfer"]
  if products.length = 0 then .error "a cannot be empty unless no samples are taken"
  else if num_records < 0 then .error "negative dimensions are not allowed"
  else if regions.length = 0 then .error "a cannot be empty unless no samples are taken"
  else
    let n := num_records.toNat
    let rows := (List.range n).map (mkSalesRow clock products regions payment_methods g.tape n)
    .ok ((pandasDescArgsort (rows.map (fun r => r.date))).map
        (fun j => rows.getD j (mkSalesRow clock products regions payment_methods g.tape n 0)),
      ⟨g.tape, 7 * n⟩)

/-- Row `i` of `generate_customer_data` for `n` requested customers
(lines 113-126); columns drawn in source order: signup-date offsets,
segments, statuses, countries, purchase counts, lifetime values, average
order values. -/
def mkCustomerRow (clock : ℕ → ℚ) (tape : ℕ → ℚ) (n i : ℕ) : CustomerRow :=
  { customer_id := "CUST_" ++ padNum 5 i
    signup_date := clock i - ((Int.floor (tape i * 730) : ℤ) : ℚ)
    segment := weightedChoice ["Premium", "Standard", "Basic"] [1/5, 1/2, 3/10] (tape (n + i))
    status := weightedChoice ["Active", "Inactive", "Churned"] [7/10, 1/5, 1/10] (tape (2 * n + i))
    country := uniformChoice ["USA", "UK", "Germany", "France", "Canada", "Australia", "Japan"]
      (tape (3 * n + i))
    total_purchases := 1 + Int.floor (tape (4 * n + i) * 99)
    lifetime_value := 100 + tape (5 * n + i) * 9900
    average_order_value := 20 + tape (6 * n + i) * 480 }

/-- `generate_customer_data` (lines 101-128): seeds the shared source with 42
and builds the customer columns. -/
def generate_customer_data (mt : ℕ → ℕ → ℚ) (clock : ℕ → ℚ) (num_customers : ℤ)
    (_gIn : NpRandom) : Except String (List CustomerRow × NpRandom) :=
  let g := npSeed mt 42
  if num_customers < 0 then .error "negative dimensions are not allowed"
  else
    let n := num_customers.toNat
    .ok ((List.range n).map (mkCustomerRow clock g.tape n), ⟨g.tape, 7 * n⟩)

/-- `np.random.choice` from a literal list of floats (line 158). -/
def npChoiceQ (xs : List ℚ) (g : NpRandom) : ℚ × NpRandom :=
  let p := g.next
  (uniformChoice xs p.1, p.2)

/-- `generate_metrics_data`, loop body (lines 148-167): seasonality uses the
enumeration index `i`; with anomalies enabled a uniform draw decides (at
probability 0.05) whether to scale the value by 0.5 or 2.0; then four normal
draws produce the derived metrics, with rates clamped into `[0, 1]`. -/
def metricsLoop (sin2pi : ℚ → ℚ) (include_anomalies : Bool) :
    List ℚ → ℕ → List MetricsRow → NpRandom → List MetricsRow × NpRandom
  | [], _, rows, g => (rows, g)
  | d :: ds, i, rows, g =>
    let trend : ℚ := (i : ℚ) * 5
    let seasonal : ℚ := 100 * sin2pi ((i : ℚ) / 7)
    let noisep := npNormal 0 50 g
    let value : ℚ := 1000 + trend + seasonal + noisep.1
    let anomp :=
      if include_anomalies then
        let up := npRandomFloat noisep.2
        if up.1 < 1/20 then
          let mp := npChoiceQ [1/2, 2] up.2
          (value * mp.1, mp.2)
        else (value, up.2)
      else (value, noisep.2)
    let op := npNormal 0 10 anomp.2
    let ncp := npNormal 0 5 op.2
    let rcp := npNormal 0 10 ncp.2
    let crp := npNormal 0 (1/200) rcp.2
    metricsLoop sin2pi include_anomalies ds (i + 1)
      (rows ++ [{ date := d
                  revenue := max 0 anomp.1
                  orders := Int.floor (max 0 (anomp.1 / 50 + op.1))
                  new_customers := Int.floor (max 0 (20 + ncp.1))
                  returning_customers := Int.floor (max 0 (50 + rcp.1))
                  conversion_rate := min 1 (max 0 (3/100 + crp.1)) }]) crp.2

/-- `generate_metrics_data` (lines 131-169): a daily date range from
`now - num_days` to `now` and one row per date.  This function raises no
errors. -/
def generate_metrics_data (sin2pi : ℚ → ℚ) (clock : ℕ → ℚ) (num_days : ℤ)
    (include_anomalies : Bool) (g : NpRandom) : List MetricsRow × NpRandom :=
  metricsLoop sin2pi include_anomalies
    (dateRange (clock 0 - (num_days : ℚ)) (clock 1) 1) 0 [] g

/-- `generate_cohort_data`, inner loop over the 12 tracked months
(lines 188-202). -/
def cohortMonths (cohort_date : ℚ) (cohort_size : ℤ) :
    List ℕ → List CohortRow → NpRandom → List CohortRow × NpRandom
  | [], rows, g => (rows, g)
  | m :: ms, rows, g =>
    let base_retention : ℚ := 1 / (1 + (m : ℚ) * (3/10))
    let jp := npUniform (4/5) (6/5) g
    let retention := min 1 (max 0 (base_retention * jp.1))
    cohortMonths cohort_date cohort_size ms
      (rows ++ [{ cohort := cohort_date, month := m, cohort_size := cohort_size,
                  retained_users := Int.floor ((cohort_size : ℚ) * retention),
                  retention_rate := retention }]) jp.2

/-- `generate_cohort_data`, outer loop over the cohorts (lines 185-202). -/
def cohortOuter : List ℚ → List CohortRow → NpRandom → List CohortRow × NpRandom
  | [], rows, g => (rows, g)
  | d :: ds, rows, g =>
    let szp := npRandint 100 1000 g
    let res := cohortMonths d szp.1 (List.range 12) rows szp.2
    cohortOuter ds res.1 res.2

/-- `generate_cohort_data` (lines 172-204): `num_cohorts` month-start
timestamps (a negative count makes `pd.date_range` raise), and for each
cohort a random size plus 12 retention rows. -/
def generate_cohort_data (clock : ℕ → ℚ) (num_cohorts : ℤ) (g : NpRandom) :
    Except String (List CohortRow × NpRandom) :=
  if num_cohorts < 0 then .error "Number of samples must be non-negative"
  else
    .ok (cohortOuter (dateRangeMS (clock 0 - 30 * (num_cohorts : ℚ)) num_cohorts.toNat) [] g)

/-!
## Closed forms and concrete instances

Closed-form row constructions, proven below to equal the loop translations
row for row; they expose the per-row sequence index and tape position that
the loops keep implicitly.  Then a handful of concrete parameter
instantiations used to evaluate the generators on explicit inputs. -/

/-- Rows appended by one pass of `tsInner` over the remaining categories,
starting at global row index `idx` with the tape at position `p`. -/
def tsBuilt (sin2pi : ℚ → ℚ) (tape : ℕ → ℚ) (date : ℚ) :
    List String → ℕ → ℕ → List TsRow
  | [], _, _ => []
  | c :: cs, idx, p =>
    { date := date, category := c,
      value := max 0 (1000 + (idx : ℚ) * (1 / 2)
        + 100 * sin2pi ((dayofyear date : ℚ) / 365) + (0 + 50 * tape p)),
      transactions := 50 + Int.floor (tape (p + 1) * ((500 : ℚ) - (50 : ℚ))),
      users := 10 + Int.floor (tape (p + 2) * ((200 : ℚ) - (10 : ℚ))) }
      :: tsBuilt sin2pi tape date cs (idx + 1) (p + 3)

/-- Rows appended by `tsOuter` over the remaining dates. -/
def tsBuiltAll (sin2pi : ℚ → ℚ) (tape : ℕ → ℚ) :
    List ℚ → List String → ℕ → ℕ → List TsRow
  | [], _, _, _ => []
  | d :: ds, cats, idx, p =>
    tsBuilt sin2pi tape d cats idx p
      ++ tsBuiltAll sin2pi tape ds cats (idx + cats.length) (p + 3 * cats.length)

/-- The raw (pre-clamp) metrics value of row `i` with the tape at `p`, as the
code computes it: the seasonal argument is the row index `i`, not a
day-of-year. -/
def metricsRawValue (sin2pi : ℚ → ℚ) (tape : ℕ → ℚ) (i p : ℕ) : ℚ :=
  1000 + (i : ℚ) * 5 + 100 * sin2pi ((i : ℚ) / 7) + (0 + 50 * tape p)

/-- Rows appended by `metricsLoop` with anomaly injection disabled. -/
def metricsBuilt (sin2pi : ℚ → ℚ) (tape : ℕ → ℚ) :
    List ℚ → ℕ → ℕ → List MetricsRow
  | [], _, _ => []
  | d :: ds, i, p =>
    { date := d,
      revenue := max 0 (metricsRawValue sin2pi tape i p),
      orders := Int.floor (max 0 (metricsRawValue sin2pi tape i p / 50 + (0 + 10 * tape (p + 1)))),
      new_customers := Int.floor (max 0 (20 + (0 + 5 * tape (p + 2)))),
      returning_customers := Int.floor (max 0 (50 + (0 + 10 * tape (p + 3)))),
      conversion_rate := min 1 (max 0 (3 / 100 + (0 + (1 / 200) * tape (p + 4)))) }
      :: metricsBuilt sin2pi tape ds (i + 1) (p + 5)

/-- The raw metrics value as the specification sentence states it: seasonal
argument `day_of_year / 7`.  Defined only to compare the sentence against
the code, which uses the row index instead. -/
def specMetricsRawValue (sin2pi : ℚ → ℚ) (date : ℚ) (i : ℕ) (z : ℚ) : ℚ :=
  1000 + (i : ℚ) * 5 + 100 * sin2pi ((dayofyear date : ℚ) / 7) + 50 * z

/-- The table of an `Except`-valued generator result (empty on error). -/
def tableOf {α : Type} (r : Except String (List α × NpRandom)) : List α :=
  match r with
  | .ok p => p.1
  | .error _ => []

/-- Whether a generator call returned without raising. -/
def okOf {α : Type} (r : Except String (List α × NpRandom)) : Bool :=
  match r with
  | .ok _ => true
  | .error _ => false

/-- The final shared-generator state of a generator result (`d` on error). -/
def stateOf {α : Type} (r : Except String (List α × NpRandom)) (d : NpRandom) : NpRandom :=
  match r with
  | .ok p => p.2
  | .error _ => d

/-- Concrete tape family: every draw result is 0 (a legal uniform value and a
legal standard normal variate). -/
def mt0 : ℕ → ℕ → ℚ := fun _ _ => 0

/-- Concrete wall clock: every reading is the epoch. -/
def clock0 : ℕ → ℚ := fun _ => 0

/-- Concrete initial shared random state. -/
def g0 : NpRandom := ⟨fun _ => 0, 0⟩

/-- The identity as a concrete stand-in for `x ↦ sin 2πx` in counterexamples
(the claims under test hold or fail for every such function). -/
def sinId : ℚ → ℚ := fun x => x

/-- Default rows used as `getD` fallbacks in concrete statements. -/
def tsRow0 : TsRow := ⟨0, "", 0, 0, 0⟩

def salesRow0 : SalesRow := ⟨"", 0, "", "", 0, 0, "", 0, 0, 0⟩

def metricsRow0 : MetricsRow := ⟨0, 0, 0, 0, 0, 0⟩

/-- The concrete `generate_sales_data(num_records=100)` call (default
`num_products`/`num_regions`, all-zero tape and clock) used to test the
ordering claim: every row receives the same timestamp. -/
def salesCxCall : Except String (List SalesRow × NpRandom) :=
  generate_sales_data mt0 clock0 100 20 5 g0

/-!
## Lemmas about the argsort port
-/

theorem scanUpAux_ge (v : List ℚ) (t : List ℕ) (vp : ℚ) :
    ∀ k p, p ≤ scanUpAux v t vp p k := by
  intro k
  induction k with
  | zero => intro p; exact le_refl p
  | succ k ih =>
    intro p
    unfold scanUpAux
    split
    · exact le_trans (Nat.le_succ p) (ih (p + 1))
    · exact le_refl p

theorem scanUpAux_le (v : List ℚ) (t : List ℕ) (vp : ℚ) :
    ∀ k p, scanUpAux v t vp p k ≤ p + k := by
  intro k
  induction k with
  | zero => intro p; exact Nat.le_refl p
  | succ k ih =>
    intro p
    unfold scanUpAux
    split
    · exact le_trans (ih (p + 1)) (by omega)
    · omega

theorem scanUp_ge (v : List ℚ) (t : List ℕ) (vp : ℚ) (p r : ℕ) :
    p ≤ scanUp v t vp p r :=
  scanUpAux_ge v t vp (r - p) p

theorem scanUp_le (v : List ℚ) (t : List ℕ) (vp : ℚ) (p r : ℕ) (h : p ≤ r) :
    scanUp v t vp p r ≤ r :=
  le_trans (scanUpAux_le v t vp (r - p) p) (by omega)

theorem scanDownAux_le (v : List ℚ) (t : List ℕ) (vp : ℚ) :
    ∀ k p, scanDownAux v t vp p k ≤ p := by
  intro k
  induction k with
  | zero => intro p; exact le_refl p
  | succ k ih =>
    intro p
    unfold scanDownAux
    split
    · exact le_trans (ih (p - 1)) (Nat.sub_le p 1)
    · exact le_refl p

theorem scanDownAux_ge (v : List ℚ) (t : List ℕ) (vp : ℚ) :
    ∀ k p, p - k ≤ scanDownAux v t vp p k := by
  intro k
  induction k with
  | zero => intro p; unfold scanDownAux; omega
  | succ k ih =>
    intro p
    unfold scanDownAux
    split
    · exact le_trans (by omega) (ih (p - 1))
    · omega

theorem scanDown_le (v : List ℚ) (t : List ℕ) (vp : ℚ) (p l : ℕ) :
    scanDown v t vp p l ≤ p :=
  scanDownAux_le v t vp (p - l) p

theorem scanDown_ge (v : List ℚ) (t : List ℕ) (vp : ℚ) (p l : ℕ) (h : l ≤ p) :
    l ≤ scanDown v t vp p l :=
  le_trans (by omega) (scanDownAux_ge v t vp (p - l) p)

theorem partLoop_bounds (v : List ℚ) (vp : ℚ) (l r : ℕ) :
    ∀ fuel t pi pj, l ≤ pi → pi + 1 ≤ r → pj ≤ r →
      l < (partLoop v vp l r fuel t pi pj).2 ∧ (partLoop v vp l r fuel t pi pj).2 ≤ r := by
  intro fuel
  induction fuel with
  | zero =>
    intro t pi pj h1 h2 h3
    unfold partLoop
    exact ⟨by have := scanUp_ge v t vp (pi + 1) r; omega, scanUp_le v t vp (pi + 1) r h2⟩
  | succ fuel ih =>
    intro t pi pj h1 h2 h3
    unfold partLoop
    have hup1 := scanUp_ge v t vp (pi + 1) r
    have hup2 := scanUp_le v t vp (pi + 1) r h2
    have hdn2 := scanDown_le v t vp (pj - 1) l
    simp only []
    split
    · next hlt => exact ih _ _ _ (by omega) (by omega) (by omega)
    · exact ⟨by omega, hup2⟩

theorem partitionSeg_bounds (v : List ℚ) (t : List ℕ) (l r : ℕ) (h : l + 1 ≤ r) :
    l < (partitionSeg v t l r).2 ∧ (partitionSeg v t l r).2 ≤ r :=
  partLoop_bounds v _ l r r _ l (r - 1) (le_refl l) h (Nat.sub_le r 1)

/-!
## List toolkit
-/

theorem set_getD_self {α : Type} : ∀ (l : List α) (k : ℕ) (d : α),
    l.set k (l.getD k d) = l
  | [], _, _ => rfl
  | _ :: _, 0, _ => rfl
  | a :: t, k + 1, d => congrArg (List.cons a) (set_getD_self t k d)

theorem count_set_aux {α : Type} [DecidableEq α] (l : List α) (k : ℕ) (x y : α)
    (h : k < l.length) :
    (l.set k x).count y + (if l[k] = y then 1 else 0)
      = l.count y + (if x = y then 1 else 0) := by
  rw [List.set_eq_take_cons_drop x h]
  conv_rhs => rw [← List.take_append_drop k l, List.drop_eq_getElem_cons h]
  simp only [List.count_append, List.count_cons, beq_iff_eq]
  split_ifs <;> omega

theorem lswap_perm (t : List ℕ) (a b : ℕ) (ha : a < t.length) (hb : b < t.length) :
    (lswap t a b).Perm t := by
  by_cases hab : a = b
  · subst hab
    unfold lswap
    rw [List.set_set, set_getD_self]
  · rw [List.perm_iff_count]
    intro y
    unfold lswap
    rw [List.getD_eq_getElem t 0 ha, List.getD_eq_getElem t 0 hb]
    have hb' : b < (t.set a t[b]).length := by simpa using hb
    have h1 := count_set_aux (t.set a t[b]) b t[a] y hb'
    have h2 := count_set_aux t a t[b] y ha
    have hbb : (t.set a t[b])[b] = t[b] :=
      List.getElem_set_ne hab hb'
    rw [hbb] at h1
    split_ifs at h1 h2 <;> omega

theorem set_chain_perm (t : List ℕ) (a b x : ℕ) (ha : a < t.length)
    (hb : b < t.length) (hab : a ≠ b) :
    ((t.set a (t.getD b 0)).set b x).Perm (t.set a x) := by
  rw [List.perm_iff_count]
  intro y
  rw [List.getD_eq_getElem t 0 hb]
  have hb' : b < (t.set a t[b]).length := by simpa using hb
  have h1 := count_set_aux (t.set a t[b]) b x y hb'
  have h2 := count_set_aux t a t[b] y ha
  have h3 := count_set_aux t a x y ha
  have hbb : (t.set a t[b])[b] = t[b] :=
    List.getElem_set_ne hab hb'
  rw [hbb] at h1
  split_ifs at h1 h2 h3 <;> omega

theorem getD_range_map {α : Type} : ∀ (l : List α) (d : α),
    (List.range l.length).map (fun i => l.getD i d) = l
  | [], _ => rfl
  | a :: t, d => by
    rw [List.length_cons, List.range_succ_eq_map, List.map_cons, List.map_map]
    have : ((fun i => (a :: t).getD i d) ∘ Nat.succ) = fun i => t.getD i d := rfl
    rw [this]
    rw [getD_range_map t d]
    rfl

theorem map_sub_range : ∀ n : ℕ,
    (List.range n).map (fun j => n - 1 - j) = (List.range n).reverse
  | 0 => rfl
  | n + 1 => by
    conv_lhs => rw [List.range_succ_eq_map]
    conv_rhs => rw [List.range_succ]
    rw [List.reverse_append, List.map_cons, List.map_map]
    have : ((fun j => n + 1 - 1 - j) ∘ Nat.succ) = fun j => n - 1 - j := by
      funext j
      show n + 1 - 1 - (j + 1) = n - 1 - j
      omega
    rw [this, map_sub_range n]
    simp

/-!
## The argsort port permutes its index array

Every step of the introspective sort (swaps, the stable insertion sort of a
slice, the heap sift chains) rearranges the index array, so the final index
list is a permutation of `range n`. -/

theorem lswap_length (t : List ℕ) (a b : ℕ) : (lswap t a b).length = t.length := by
  simp [lswap]

theorem swapIfLt_perm (v : List ℚ) (t : List ℕ) (a b : ℕ)
    (ha : a < t.length) (hb : b < t.length) : (swapIfLt v t a b).Perm t := by
  unfold swapIfLt
  split
  · exact lswap_perm t a b ha hb
  · exact List.Perm.refl t

theorem median3_perm (v : List ℚ) (t : List ℕ) (l r : ℕ)
    (hl : l < t.length) (hr : r < t.length) : (median3 v t l r).Perm t := by
  have hm : l + (r - l) / 2 < t.length := by omega
  have h1 := swapIfLt_perm v t (l + (r - l) / 2) l hm hl
  have e1 := h1.length_eq
  have h2 := swapIfLt_perm v (swapIfLt v t (l + (r - l) / 2) l) r (l + (r - l) / 2)
    (by omega) (by omega)
  have e2 := h2.length_eq
  have h3 := swapIfLt_perm v
    (swapIfLt v (swapIfLt v t (l + (r - l) / 2) l) r (l + (r - l) / 2))
    (l + (r - l) / 2) l (by omega) (by omega)
  exact h3.trans (h2.trans h1)

theorem partLoop_perm (v : List ℚ) (vp : ℚ) (l r : ℕ) :
    ∀ fuel t pi pj, l ≤ pi → pi + 1 ≤ r → pj ≤ r → r < t.length →
      ((partLoop v vp l r fuel t pi pj).1).Perm t := by
  intro fuel
  induction fuel with
  | zero =>
    intro t pi pj _ _ _ _
    unfold partLoop
    exact List.Perm.refl t
  | succ fuel ih =>
    intro t pi pj h1 h2 h3 hlen
    unfold partLoop
    have hup1 := scanUp_ge v t vp (pi + 1) r
    have hup2 := scanUp_le v t vp (pi + 1) r h2
    have hdn2 := scanDown_le v t vp (pj - 1) l
    simp only []
    split
    · next hlt =>
      have hswap := lswap_perm t (scanUp v t vp (pi + 1) r) (scanDown v t vp (pj - 1) l)
        (by omega) (by omega)
      have hrec := ih (lswap t (scanUp v t vp (pi + 1) r) (scanDown v t vp (pj - 1) l))
        (scanUp v t vp (pi + 1) r) (scanDown v t vp (pj - 1) l)
        (by omega) (by omega) (by omega) (by rw [lswap_length]; exact hlen)
      exact hrec.trans hswap
    · exact List.Perm.refl t

theorem partitionSeg_perm (v : List ℚ) (t : List ℕ) (l r : ℕ) (h : l + 1 ≤ r)
    (hlen : r < t.length) : ((partitionSeg v t l r).1).Perm t := by
  unfold partitionSeg
  simp only []
  have h3 := median3_perm v t l r (by omega) hlen
  have e3 := h3.length_eq
  have h4 := lswap_perm (median3 v t l r) (l + (r - l) / 2) (r - 1) (by omega) (by omega)
  have e4 := lswap_length (median3 v t l r) (l + (r - l) / 2) (r - 1)
  have h5 := partLoop_perm v (keyAt v (median3 v t l r) (l + (r - l) / 2)) l r r
    (lswap (median3 v t l r) (l + (r - l) / 2) (r - 1)) l (r - 1)
    (le_refl l) h (Nat.sub_le r 1) (by omega)
  have e5 := h5.length_eq
  have hb := partLoop_bounds v (keyAt v (median3 v t l r) (l + (r - l) / 2)) l r r
    (lswap (median3 v t l r) (l + (r - l) / 2) (r - 1)) l (r - 1)
    (le_refl l) h (Nat.sub_le r 1)
  have h6 := lswap_perm
    (partLoop v (keyAt v (median3 v t l r) (l + (r - l) / 2)) l r r
      (lswap (median3 v t l r) (l + (r - l) / 2) (r - 1)) l (r - 1)).1
    (partLoop v (keyAt v (median3 v t l r) (l + (r - l) / 2)) l r r
      (lswap (median3 v t l r) (l + (r - l) / 2) (r - 1)) l (r - 1)).2
    (r - 1) (by omega) (by omega)
  exact h6.trans (h5.trans (h4.trans h3))

theorem insertionSeg_perm (v : List ℚ) (t : List ℕ) (l r : ℕ) :
    (insertionSeg v t l r).Perm t := by
  unfold insertionSeg
  split
  · exact List.Perm.refl t
  · next hrl =>
    have hmid := List.perm_insertionSort (fun a b => v.getD a 0 ≤ v.getD b 0)
      ((t.drop l).take (r + 1 - l))
    have hdec : t.take l ++ (t.drop l).take (r + 1 - l) ++ t.drop (r + 1) = t := by
      have hdd : t.drop (r + 1) = (t.drop l).drop (r + 1 - l) := by
        rw [List.drop_drop]
        congr 1
        omega
      rw [hdd, List.append_assoc, List.take_append_drop, List.take_append_drop]
    have hperm : (t.take l ++ List.insertionSort (fun a b => v.getD a 0 ≤ v.getD b 0)
          ((t.drop l).take (r + 1 - l)) ++ t.drop (r + 1)).Perm
        (t.take l ++ (t.drop l).take (r + 1 - l) ++ t.drop (r + 1)) :=
      List.Perm.append_right _ (List.Perm.append_left _ hmid)
    rw [hdec] at hperm
    exact hperm

theorem siftDown_perm (v : List ℚ) (off tmp n : ℕ) :
    ∀ fuel t i j, 1 ≤ i → i < j → off + n ≤ t.length →
      (siftDown v fuel t off tmp i j n).Perm (t.set (off + i - 1) tmp) := by
  intro fuel
  induction fuel with
  | zero =>
    intro t i j _ _ _
    unfold siftDown
    exact List.Perm.refl _
  | succ fuel ih =>
    intro t i j h1 h2 hlen
    unfold siftDown
    simp only []
    split
    · next hj =>
      have hstep : ∀ j2, j ≤ j2 → j2 ≤ n →
          (siftDown v fuel (t.set (off + i - 1) (t.getD (off + j2 - 1) 0)) off tmp j2
            (2 * j2) n).Perm (t.set (off + i - 1) tmp) := by
        intro j2 hjle hj2n
        have ha : off + i - 1 < t.length := by omega
        have hb : off + j2 - 1 < t.length := by omega
        have hrec := ih (t.set (off + i - 1) (t.getD (off + j2 - 1) 0)) j2 (2 * j2)
          (by omega) (by omega) (by rw [List.length_set]; exact hlen)
        exact hrec.trans (set_chain_perm t (off + i - 1) (off + j2 - 1) tmp ha hb (by omega))
      split
      · next hc =>
        split
        · exact hstep (j + 1) (by omega) (by omega)
        · exact List.Perm.refl _
      · split
        · exact hstep j (le_refl j) (by omega)
        · exact List.Perm.refl _
    · exact List.Perm.refl _

theorem heapifyLoop_perm (v : List ℚ) (off n : ℕ) :
    ∀ k t, off + n ≤ t.length → (heapifyLoop v off n t k).Perm t := by
  intro k
  induction k with
  | zero => intro t _; exact List.Perm.refl t
  | succ k ih =>
    intro t hlen
    unfold heapifyLoop
    have hsift := siftDown_perm v off (t.getD (off + k) 0) n (n + 1) t (k + 1) (2 * (k + 1))
      (by omega) (by omega) hlen
    have hset : t.set (off + (k + 1) - 1) (t.getD (off + k) 0) = t := by
      have hoff : off + (k + 1) - 1 = off + k := by omega
      rw [hoff, set_getD_self]
    rw [hset] at hsift
    have hlen2 : off + n ≤ (siftDown v (n + 1) t off (t.getD (off + k) 0)
        (k + 1) (2 * (k + 1)) n).length := by
      rw [hsift.length_eq]
      exact hlen
    exact (ih _ hlen2).trans hsift

theorem extractLoop_perm (v : List ℚ) (off : ℕ) :
    ∀ m t, off + m ≤ t.length → (extractLoop v off t m).Perm t := by
  intro m
  induction m with
  | zero => intro t _; exact List.Perm.refl t
  | succ k ih =>
    intro t hlen
    match k, ih with
    | 0, _ => exact List.Perm.refl t
    | k2 + 1, ih =>
      unfold extractLoop
      have hT1 : off + (k2 + 1) ≤ (t.set (off + k2 + 1) (t.getD off 0)).length := by
        rw [List.length_set]
        omega
      have hsift := siftDown_perm v off (t.getD (off + k2 + 1) 0) (k2 + 1) (k2 + 2)
        (t.set (off + k2 + 1) (t.getD off 0)) 1 2 (le_refl 1) (by omega) hT1
      have hnet : ((t.set (off + k2 + 1) (t.getD off 0)).set (off + 1 - 1)
          (t.getD (off + k2 + 1) 0)) = lswap t (off + k2 + 1) off := by
        unfold lswap
        congr 1
      have hswap := lswap_perm t (off + k2 + 1) off (by omega) (by omega)
      rw [hnet] at hsift
      have hlen2 : off + (k2 + 1) ≤ (siftDown v (k2 + 2)
          (t.set (off + k2 + 1) (t.getD off 0)) off (t.getD (off + k2 + 1) 0)
          1 2 (k2 + 1)).length := by
        rw [hsift.length_eq, lswap_length]
        omega
      exact (ih _ hlen2).trans (hsift.trans hswap)

theorem aheapsortSeg_perm (v : List ℚ) (t : List ℕ) (l r : ℕ) (hlen : r < t.length) :
    (aheapsortSeg v t l r).Perm t := by
  unfold aheapsortSeg
  rcases le_or_lt l r with hle | hgt
  · have hh := heapifyLoop_perm v l (r + 1 - l) ((r + 1 - l) / 2) t (by omega)
    have hx := extractLoop_perm v l (r + 1 - l)
      (heapifyLoop v l (r + 1 - l) t ((r + 1 - l) / 2)) (by rw [hh.length_eq]; omega)
    exact hx.trans hh
  · have hz : r + 1 - l = 0 := by omega
    rw [hz]
    exact List.Perm.refl t

theorem aqsSeg_perm (v : List ℚ) :
    ∀ fuel t l r depth popped, r < t.length →
      (aqsSeg v fuel t l r depth popped).Perm t := by
  intro fuel
  induction fuel with
  | zero =>
    intro t l r depth popped _
    unfold aqsSeg
    exact insertionSeg_perm v t l r
  | succ fuel ih =>
    intro t l r depth popped hlen
    unfold aqsSeg
    split
    · exact aheapsortSeg_perm v t l r hlen
    · simp only []
      split
      · next hlr =>
        have hb := partitionSeg_bounds v t l r (by omega)
        have hp := partitionSeg_perm v t l r (by omega) hlen
        have hplen := hp.length_eq
        split
        · have h1 := ih (partitionSeg v t l r).1 l ((partitionSeg v t l r).2 - 1)
            (depth - 1) false (by omega)
          have h2 := ih _ ((partitionSeg v t l r).2 + 1) r (depth - 1) true
            (by rw [h1.length_eq]; omega)
          exact h2.trans (h1.trans hp)
        · have h1 := ih (partitionSeg v t l r).1 ((partitionSeg v t l r).2 + 1) r
            (depth - 1) false (by omega)
          have h2 := ih _ l ((partitionSeg v t l r).2 - 1) (depth - 1) true
            (by rw [h1.length_eq]; omega)
          exact h2.trans (h1.trans hp)
      · exact insertionSeg_perm v t l r

theorem npArgsortQuicksort_perm (v : List ℚ) :
    (npArgsortQuicksort v).Perm (List.range v.length) := by
  unfold npArgsortQuicksort
  split
  · next h =>
    rw [h]
    exact List.Perm.refl _
  · next h =>
    exact aqsSeg_perm v v.length (List.range v.length) 0 (v.length - 1)
      (2 * (log2Aux v.length v.length : ℤ)) true (by rw [List.length_range]; omega)

theorem pandasDescArgsort_perm (col : List ℚ) :
    (pandasDescArgsort col).Perm (List.range col.length) := by
  unfold pandasDescArgsort
  have h1 := npArgsortQuicksort_perm col.reverse
  rw [List.length_reverse] at h1
  have h2 := h1.map (fun j => col.length - 1 - j)
  rw [map_sub_range] at h2
  exact (List.reverse_perm _).trans (h2.trans (List.reverse_perm _))

/-!
## Loop translations equal their closed forms
-/

theorem tsBuilt_length (sin2pi : ℚ → ℚ) (tape : ℕ → ℚ) (d : ℚ) :
    ∀ (cs : List String) (idx p : ℕ),
      (tsBuilt sin2pi tape d cs idx p).length = cs.length := by
  intro cs
  induction cs with
  | nil => intro idx p; rfl
  | cons c cs ih => intro idx p; simp [tsBuilt, ih]

theorem tsBuiltAll_length (sin2pi : ℚ → ℚ) (tape : ℕ → ℚ) :
    ∀ (ds : List ℚ) (cats : List String) (idx p : ℕ),
      (tsBuiltAll sin2pi tape ds cats idx p).length = ds.length * cats.length := by
  intro ds
  induction ds with
  | nil => intro cats idx p; simp [tsBuiltAll]
  | cons d ds ih =>
    intro cats idx p
    simp [tsBuiltAll, tsBuilt_length, ih]
    ring

theorem tsInner_eq (sin2pi : ℚ → ℚ) (d : ℚ) :
    ∀ (cs : List String) (rows : List TsRow) (g : NpRandom),
      tsInner sin2pi d cs rows g
        = (rows ++ tsBuilt sin2pi g.tape d cs rows.length g.pos,
           ⟨g.tape, g.pos + 3 * cs.length⟩) := by
  intro cs
  induction cs with
  | nil =>
    intro rows g
    simp [tsInner, tsBuilt]
  | cons c cs ih =>
    intro rows g
    simp only [tsInner, npNormal, npRandint, NpRandom.next, ih, tsBuilt]
    rw [Prod.mk.injEq]
    refine ⟨?_, ?_⟩
    · push_cast
      simp [List.append_assoc, List.length_append, Nat.add_assoc]
    · simp only [NpRandom.mk.injEq, List.length_cons]
      exact ⟨trivial, by omega⟩

theorem tsOuter_eq (sin2pi : ℚ → ℚ) :
    ∀ (ds : List ℚ) (cats : List String) (rows : List TsRow) (g : NpRandom),
      tsOuter sin2pi ds cats rows g
        = (rows ++ tsBuiltAll sin2pi g.tape ds cats rows.length g.pos,
           ⟨g.tape, g.pos + 3 * cats.length * ds.length⟩) := by
  intro ds
  induction ds with
  | nil =>
    intro cats rows g
    simp [tsOuter, tsBuiltAll]
  | cons d ds ih =>
    intro cats rows g
    simp only [tsOuter, tsInner_eq, ih, tsBuiltAll]
    rw [Prod.mk.injEq]
    refine ⟨?_, ?_⟩
    · simp [List.append_assoc, List.length_append, tsBuilt_length]
    · simp only [NpRandom.mk.injEq, List.length_cons]
      refine ⟨trivial, ?_⟩
      ring

theorem metricsLoop_eq (sin2pi : ℚ → ℚ) :
    ∀ (ds : List ℚ) (i : ℕ) (rows : List MetricsRow) (g : NpRandom),
      metricsLoop sin2pi false ds i rows g
        = (rows ++ metricsBuilt sin2pi g.tape ds i g.pos,
           ⟨g.tape, g.pos + 5 * ds.length⟩) := by
  intro ds
  induction ds with
  | nil =>
    intro i rows g
    simp [metricsLoop, metricsBuilt]
  | cons d ds ih =>
    intro i rows g
    simp only [metricsLoop, npNormal, npRandomFloat, npChoiceQ, NpRandom.next,
      Bool.false_eq_true, if_false, ih, metricsBuilt, metricsRawValue]
    rw [Prod.mk.injEq]
    refine ⟨?_, ?_⟩
    · simp [List.append_assoc, List.length_append, Nat.add_assoc]
    · simp only [NpRandom.mk.injEq, List.length_cons]
      exact ⟨trivial, by omega⟩

theorem metricsLoop_length (sin2pi : ℚ → ℚ) (b : Bool) :
    ∀ (ds : List ℚ) (i : ℕ) (rows : List MetricsRow) (g : NpRandom),
      (metricsLoop sin2pi b ds i rows g).1.length = rows.length + ds.length := by
  intro ds
  induction ds with
  | nil => intro i rows g; simp [metricsLoop]
  | cons d ds ih =>
    intro i rows g
    simp only [metricsLoop]
    rw [ih]
    simp
    omega

theorem metricsLoop_conversion (sin2pi : ℚ → ℚ) (b : Bool) :
    ∀ (ds : List ℚ) (i : ℕ) (rows : List MetricsRow) (g : NpRandom),
      (∀ r ∈ rows, 0 ≤ r.conversion_rate ∧ r.conversion_rate ≤ 1) →
      ∀ r ∈ (metricsLoop sin2pi b ds i rows g).1,
        0 ≤ r.conversion_rate ∧ r.conversion_rate ≤ 1 := by
  intro ds
  induction ds with
  | nil =>
    intro i rows g h
    simpa [metricsLoop] using h
  | cons d ds ih =>
    intro i rows g h
    simp only [metricsLoop]
    apply ih
    intro r hr
    rcases List.mem_append.mp hr with hr | hr
    · exact h r hr
    · rcases List.mem_singleton.mp hr with rfl
      constructor
      · exact le_min (by norm_num) (le_max_left 0 _)
      · exact min_le_left 1 _

theorem cohortMonths_length (d : ℚ) (sz : ℤ) :
    ∀ (ms : List ℕ) (rows : List CohortRow) (g : NpRandom),
      (cohortMonths d sz ms rows g).1.length = rows.length + ms.length := by
  intro ms
  induction ms with
  | nil => intro rows g; simp [cohortMonths]
  | cons m ms ih =>
    intro rows g
    simp only [cohortMonths]
    rw [ih]
    simp
    omega

theorem cohortOuter_length :
    ∀ (ds : List ℚ) (rows : List CohortRow) (g : NpRandom),
      (cohortOuter ds rows g).1.length = rows.length + 12 * ds.length := by
  intro ds
  induction ds with
  | nil => intro rows g; simp [cohortOuter]
  | cons d ds ih =>
    intro rows g
    simp only [cohortOuter]
    rw [ih, cohortMonths_length]
    simp
    omega

theorem cohortMonths_retention (d : ℚ) (sz : ℤ) :
    ∀ (ms : List ℕ) (rows : List CohortRow) (g : NpRandom),
      (∀ r ∈ rows, 0 ≤ r.retention_rate ∧ r.retention_rate ≤ 1) →
      ∀ r ∈ (cohortMonths d sz ms rows g).1,
        0 ≤ r.retention_rate ∧ r.retention_rate ≤ 1 := by
  intro ms
  induction ms with
  | nil =>
    intro rows g h
    simpa [cohortMonths] using h
  | cons m ms ih =>
    intro rows g h
    simp only [cohortMonths]
    apply ih
    intro r hr
    rcases List.mem_append.mp hr with hr | hr
    · exact h r hr
    · rcases List.mem_singleton.mp hr with rfl
      constructor
      · exact le_min (by norm_num) (le_max_left 0 _)
      · exact min_le_left 1 _

theorem cohortOuter_retention :
    ∀ (ds : List ℚ) (rows : List CohortRow) (g : NpRandom),
      (∀ r ∈ rows, 0 ≤ r.retention_rate ∧ r.retention_rate ≤ 1) →
      ∀ r ∈ (cohortOuter ds rows g).1,
        0 ≤ r.retention_rate ∧ r.retention_rate ≤ 1 := by
  intro ds
  induction ds with
  | nil =>
    intro rows g h
    simpa [cohortOuter] using h
  | cons d ds ih =>
    intro rows g h
    simp only [cohortOuter]
    exact ih _ _ (cohortMonths_retention _ _ _ _ _ h)

theorem dateRange_length (s e step : ℚ) (h1 : 0 < step) (h2 : s ≤ e) :
    (dateRange s e step).length = (Int.floor ((e - s) / step)).toNat + 1 := by
  unfold dateRange
  rw [if_pos ⟨h1, h2⟩, List.length_map, List.length_range]

theorem cumIndex_lt : ∀ (ws : List ℚ) (u : ℚ), 0 ≤ u → u < ws.sum →
    cumIndex ws u < ws.length := by
  intro ws
  induction ws with
  | nil =>
    intro u h0 hs
    simp at hs
    exact absurd (lt_of_le_of_lt h0 hs) (lt_irrefl 0)
  | cons w ws ih =>
    intro u h0 hs
    unfold cumIndex
    split
    · simp
    · next hw =>
      have := ih (u - w) (by linarith [not_lt.mp hw]) (by rw [List.sum_cons] at hs; linarith)
      simpa using this

theorem perm_getD_map {α : Type} (rows : List α) (dflt : α) (idx : List ℕ)
    (h : idx.Perm (List.range rows.length)) :
    (idx.map (fun j => rows.getD j dflt)).Perm rows := by
  have h2 := h.map (fun j => rows.getD j dflt)
  rw [getD_range_map rows dflt] at h2
  exact h2

/-!
## Row-level closed forms
-/

theorem tsBuilt_getD (sin2pi : ℚ → ℚ) (tape : ℕ → ℚ) (d : ℚ) (dflt : TsRow) :
    ∀ (cs : List String) (idx p k : ℕ), k < cs.length →
      (tsBuilt sin2pi tape d cs idx p).getD k dflt
        = { date := d, category := cs.getD k "",
            value := max 0 (1000 + ((idx + k : ℕ) : ℚ) * (1 / 2)
              + 100 * sin2pi ((dayofyear d : ℚ) / 365) + (0 + 50 * tape (p + 3 * k))),
            transactions := 50 + Int.floor (tape (p + 3 * k + 1) * ((500 : ℚ) - (50 : ℚ))),
            users := 10 + Int.floor (tape (p + 3 * k + 2) * ((200 : ℚ) - (10 : ℚ))) } := by
  intro cs
  induction cs with
  | nil => intro idx p k h; simp at h
  | cons c cs ih =>
    intro idx p k h
    cases k with
    | zero => simp [tsBuilt]
    | succ k =>
      simp only [tsBuilt, List.getD_cons_succ]
      rw [ih (idx + 1) (p + 3) k (by simpa using h)]
      have e1 : idx + 1 + k = idx + (k + 1) := by omega
      have e2 : p + 3 + 3 * k = p + 3 * (k + 1) := by omega
      rw [e1, e2]

theorem tsBuiltAll_getD (sin2pi : ℚ → ℚ) (tape : ℕ → ℚ) (dflt : TsRow) :
    ∀ (ds : List ℚ) (cats : List String) (idx p k : ℕ),
      k < ds.length * cats.length →
      ((tsBuiltAll sin2pi tape ds cats idx p).getD k dflt).value
        = max 0 (1000 + ((idx + k : ℕ) : ℚ) * (1 / 2)
            + 100 * sin2pi
              ((dayofyear (((tsBuiltAll sin2pi tape ds cats idx p).getD k dflt).date) : ℚ) / 365)
            + (0 + 50 * tape (p + 3 * k))) := by
  intro ds
  induction ds with
  | nil => intro cats idx p k h; simp at h
  | cons d ds ih =>
    intro cats idx p k h
    by_cases hk : k < cats.length
    · unfold tsBuiltAll
      rw [List.getD_append _ _ _ _ (by rw [tsBuilt_length]; exact hk)]
      rw [tsBuilt_getD sin2pi tape d dflt cats idx p k hk]
    · unfold tsBuiltAll
      rw [List.getD_append_right _ _ _ _ (by rw [tsBuilt_length]; omega)]
      rw [tsBuilt_length]
      have hlt : k - cats.length < ds.length * cats.length := by
        have := List.length_cons d ds
        rw [this, Nat.succ_mul] at h
        omega
      rw [ih cats (idx + cats.length) (p + 3 * cats.length) (k - cats.length) hlt]
      have e1 : idx + cats.length + (k - cats.length) = idx + k := by omega
      have e2 : p + 3 * cats.length + 3 * (k - cats.length) = p + 3 * k := by omega
      rw [e1, e2]

theorem metricsBuilt_getD (sin2pi : ℚ → ℚ) (tape : ℕ → ℚ) (dflt : MetricsRow) :
    ∀ (ds : List ℚ) (i p k : ℕ), k < ds.length →
      (metricsBuilt sin2pi tape ds i p).getD k dflt
        = { date := ds.getD k 0,
            revenue := max 0 (metricsRawValue sin2pi tape (i + k) (p + 5 * k)),
            orders := Int.floor (max 0 (metricsRawValue sin2pi tape (i + k) (p + 5 * k) / 50
              + (0 + 10 * tape (p + 5 * k + 1)))),
            new_customers := Int.floor (max 0 (20 + (0 + 5 * tape (p + 5 * k + 2)))),
            returning_customers := Int.floor (max 0 (50 + (0 + 10 * tape (p + 5 * k + 3)))),
            conversion_rate := min 1 (max 0 (3 / 100 + (0 + (1 / 200) * tape (p + 5 * k + 4)))) } := by
  intro ds
  induction ds with
  | nil => intro i p k h; simp at h
  | cons d ds ih =>
    intro i p k h
    cases k with
    | zero => simp [metricsBuilt]
    | succ k =>
      simp only [metricsBuilt, List.getD_cons_succ]
      rw [ih (i + 1) (p + 5) k (by simpa using h)]
      have e1 : i + 1 + k = i + (k + 1) := by omega
      have e2 : p + 5 + 5 * k = p + 5 * (k + 1) := by omega
      rw [e1, e2]

/-!
## The generators on their non-raising paths
-/

theorem generate_sales_data_ok (mt : ℕ → ℕ → ℚ) (clock : ℕ → ℚ)
    (nr np nrg : ℤ) (g : NpRandom) (rows : List SalesRow) (gOut : NpRandom)
    (h : generate_sales_data mt clock nr np nrg g = .ok (rows, gOut)) :
    rows = (pandasDescArgsort
        (((List.range nr.toNat).map (mkSalesRow clock
          ((List.range np.toNat).map (fun i => "Product_" ++ toString (i + 1)))
          ((List.range nrg.toNat).map (fun i => "Region_" ++ toString (i + 1)))
          ["Credit Card", "Debit Card", "PayPal", "Bank Transfer"]
          (mt 42) nr.toNat)).map (fun r => r.date))).map
      (fun j => ((List.range nr.toNat).map (mkSalesRow clock
          ((List.range np.toNat).map (fun i => "Product_" ++ toString (i + 1)))
          ((List.range nrg.toNat).map (fun i => "Region_" ++ toString (i + 1)))
          ["Credit Card", "Debit Card", "PayPal", "Bank Transfer"]
          (mt 42) nr.toNat)).getD j (mkSalesRow clock
          ((List.range np.toNat).map (fun i => "Product_" ++ toString (i + 1)))
          ((List.range nrg.toNat).map (fun i => "Region_" ++ toString (i + 1)))
          ["Credit Card", "Debit Card", "PayPal", "Bank Transfer"]
          (mt 42) nr.toNat 0)) := by
  unfold generate_sales_data at h
  simp only [npSeed] at h
  split at h
  · cases h
  · split at h
    · cases h
    · split at h
      · cases h
      · simp only [Except.ok.injEq, Prod.mk.injEq] at h
        exact h.1.symm

theorem generate_sales_data_perm (mt : ℕ → ℕ → ℚ) (clock : ℕ → ℚ)
    (nr np nrg : ℤ) (g : NpRandom) (rows : List SalesRow) (gOut : NpRandom)
    (h : generate_sales_data mt clock nr np nrg g = .ok (rows, gOut)) :
    rows.Perm ((List.range nr.toNat).map (mkSalesRow clock
      ((List.range np.toNat).map (fun i => "Product_" ++ toString (i + 1)))
      ((List.range nrg.toNat).map (fun i => "Region_" ++ toString (i + 1)))
      ["Credit Card", "Debit Card", "PayPal", "Bank Transfer"]
      (mt 42) nr.toNat)) := by
  rw [generate_sales_data_ok mt clock nr np nrg g rows gOut h]
  apply perm_getD_map
  have hp := pandasDescArgsort_perm
    (((List.range nr.toNat).map (mkSalesRow clock
      ((List.range np.toNat).map (fun i => "Product_" ++ toString (i + 1)))
      ((List.range nrg.toNat).map (fun i => "Region_" ++ toString (i + 1)))
      ["Credit Card", "Debit Card", "PayPal", "Bank Transfer"]
      (mt 42) nr.toNat)).map (fun r => r.date))
  rw [List.length_map] at hp
  exact hp

theorem generate_customer_data_ok (mt : ℕ → ℕ → ℚ) (clock : ℕ → ℚ) (nc : ℤ)
    (g : NpRandom) (rows : List CustomerRow) (gOut : NpRandom)
    (h : generate_customer_data mt clock nc g = .ok (rows, gOut)) :
    rows = (List.range nc.toNat).map (mkCustomerRow clock (mt 42) nc.toNat) := by
  unfold generate_customer_data at h
  simp only [npSeed] at h
  split at h
  · cases h
  · simp only [Except.ok.injEq, Prod.mk.injEq] at h
    exact h.1.symm

theorem generate_time_series_data_ok (sin2pi : ℚ → ℚ) (clock : ℕ → ℚ)
    (sd ed : Option ℚ) (freq : String) (nc : ℤ) (g : NpRandom) (step : ℚ)
    (rows : List TsRow) (gOut : NpRandom)
    (hf : parseFreq freq = .ok step)
    (h : generate_time_series_data sin2pi clock sd ed freq nc g = .ok (rows, gOut)) :
    rows = tsBuiltAll sin2pi g.tape
      (dateRange (sd.getD (clock 0 - 90)) (ed.getD (clock 1)) step)
      ((List.range nc.toNat).map (fun i => "Category_" ++ toString (i + 1)))
      0 g.pos := by
  unfold generate_time_series_data at h
  rw [hf] at h
  simp only [Except.ok.injEq] at h
  rw [tsOuter_eq] at h
  simp only [Prod.mk.injEq, List.nil_append, List.length_nil] at h
  exact h.1.symm

theorem generate_cohort_data_ok (clock : ℕ → ℚ) (nc : ℤ) (g : NpRandom)
    (rows : List CohortRow) (gOut : NpRandom)
    (h : generate_cohort_data clock nc g = .ok (rows, gOut)) :
    rows = (cohortOuter (dateRangeMS (clock 0 - 30 * (nc : ℚ)) nc.toNat) [] g).1 := by
  unfold generate_cohort_data at h
  split at h
  · cases h
  · simp only [Except.ok.injEq] at h
    exact (congrArg Prod.fst h).symm

theorem tsOuter_nil_cats (sin2pi : ℚ → ℚ) :
    ∀ (ds : List ℚ) (rows : List TsRow) (g : NpRandom),
      tsOuter sin2pi ds [] rows g = (rows, g) := by
  intro ds
  induction ds with
  | nil => intro rows g; rfl
  | cons d ds ih => intro rows g; simp only [tsOuter, tsInner]; exact ih rows g

theorem metricsBuilt_length (sin2pi : ℚ → ℚ) (tape : ℕ → ℚ) :
    ∀ (ds : List ℚ) (i p : ℕ), (metricsBuilt sin2pi tape ds i p).length = ds.length := by
  intro ds
  induction ds with
  | nil => intro i p; rfl
  | cons d ds ih => intro i p; simp [metricsBuilt, ih]

theorem generate_metrics_data_length (sin2pi : ℚ → ℚ) (clock : ℕ → ℚ)
    (num_days : ℤ) (b : Bool) (g : NpRandom) (h0 : 0 ≤ num_days)
    (hc0 : 0 ≤ clock 1 - clock 0) (hc1 : clock 1 - clock 0 < 1) :
    (generate_metrics_data sin2pi clock num_days b g).1.length = num_days.toNat + 1 := by
  unfold generate_metrics_data
  rw [metricsLoop_length]
  have hse : clock 0 - (num_days : ℚ) ≤ clock 1 := by
    have : (0 : ℚ) ≤ (num_days : ℚ) := by exact_mod_cast h0
    linarith
  rw [dateRange_length _ _ _ (by norm_num) hse]
  have he : clock 1 - (clock 0 - (num_days : ℚ)) = (clock 1 - clock 0) + ((num_days : ℤ) : ℚ) := by
    ring
  rw [div_one, he, Int.floor_add_int]
  have hz : ⌊clock 1 - clock 0⌋ = 0 := Int.floor_eq_zero_iff.mpr ⟨hc0, hc1⟩
  rw [hz]
  simp [Int.toNat_of_nonneg h0]

theorem ts_nonpos_cats (sin2pi : ℚ → ℚ) (clock : ℕ → ℚ) (sd ed : Option ℚ)
    (freq : String) (nc : ℤ) (g : NpRandom) (step : ℚ) (hn : nc ≤ 0)
    (hf : parseFreq freq = .ok step) :
    generate_time_series_data sin2pi clock sd ed freq nc g = .ok ([], g) := by
  unfold generate_time_series_data
  rw [hf]
  have hz : nc.toNat = 0 := by omega
  rw [hz]
  rw [show (List.range 0).map (fun i => "Category_" ++ toString (i + 1)) = [] from rfl]
  simp only []
  rw [tsOuter_nil_cats]

/-!
## The claims
-/

/-- Claim C9 (confirmed): two calls to `generate_metrics_data` with identical
parameters, each made with the shared random source reset to the same seed,
and under identical ambient conditions (the same wall-clock readings),
return identical tables row for row and field for field — the generator
reads no state other than the seeded source and the clock. -/
theorem C9_metrics_deterministic (sin2pi : ℚ → ℚ) (clock : ℕ → ℚ)
    (num_days : ℤ) (include_anomalies : Bool) (mt : ℕ → ℕ → ℚ) (seed : ℕ)
    (g1 g2 : NpRandom) (h1 : g1 = npSeed mt seed) (h2 : g2 = npSeed mt seed) :
    generate_metrics_data sin2pi clock num_days include_anomalies g1
      = generate_metrics_data sin2pi clock num_days include_anomalies g2 := by
  rw [h1, h2]

/-- Witness for C9 at a concrete seed and parameter set. -/
theorem C9_metrics_deterministic_witness :
    generate_metrics_data sinId clock0 3 false (npSeed mt0 7)
      = generate_metrics_data sinId clock0 3 false (npSeed mt0 7) :=
  C9_metrics_deterministic sinId clock0 3 false mt0 7 _ _ rfl rfl

/-- Claim C10 (confirmed): `generate_sales_data` and `generate_customer_data`
reset the process-wide seed to 42 before drawing (source lines 77 and 111),
so under the same wall clock their results do not depend on the incoming
state of the shared random source at all, and the state left behind is the
42-seeded tape advanced by exactly the draws of that call (7 per row). -/
theorem C10_unconditional_seed_reset (mt : ℕ → ℕ → ℚ) (clock : ℕ → ℚ)
    (nr np nrg nc : ℤ) (g1 g2 : NpRandom) :
    (generate_sales_data mt clock nr np nrg g1
      = generate_sales_data mt clock nr np nrg g2)
    ∧ (generate_customer_data mt clock nc g1 = generate_customer_data mt clock nc g2)
    ∧ (∀ rows gOut, generate_sales_data mt clock nr np nrg g1 = .ok (rows, gOut) →
        gOut = ⟨mt 42, 7 * nr.toNat⟩)
    ∧ (∀ rows gOut, generate_customer_data mt clock nc g1 = .ok (rows, gOut) →
        gOut = ⟨mt 42, 7 * nc.toNat⟩) := by
  refine ⟨rfl, rfl, ?_, ?_⟩
  · intro rows gOut h
    unfold generate_sales_data at h
    simp only [npSeed] at h
    split at h
    · cases h
    · split at h
      · cases h
      · split at h
        · cases h
        · simp only [Except.ok.injEq, Prod.mk.injEq] at h
          exact h.2.symm
  · intro rows gOut h
    unfold generate_customer_data at h
    simp only [npSeed] at h
    split at h
    · cases h
    · simp only [Except.ok.injEq, Prod.mk.injEq] at h
      exact h.2.symm

/-- Witness for C10: concrete calls from two different incoming states agree,
and the concrete final state is the 42-seeded tape at position `7 · n`. -/
theorem C10_unconditional_seed_reset_witness :
    (generate_sales_data mt0 clock0 2 20 5 g0
      = generate_sales_data mt0 clock0 2 20 5 ⟨mt0 9, 3⟩)
    ∧ stateOf (generate_customer_data mt0 clock0 1 g0) g0 = ⟨mt0 42, 7⟩ := by
  refine ⟨(C10_unconditional_seed_reset mt0 clock0 2 20 5 1 g0 ⟨mt0 9, 3⟩).1, ?_⟩
  cases hok : generate_customer_data mt0 clock0 1 g0 with
  | error m =>
    have hb : okOf (generate_customer_data mt0 clock0 1 g0) = true := by
      with_unfolding_all decide
    rw [hok] at hb
    simp [okOf] at hb
  | ok p =>
    have hst := (C10_unconditional_seed_reset mt0 clock0 2 20 5 1 g0 g0).2.2.2
      p.1 p.2 hok
    simpa [stateOf] using hst

/-- Claim C5 (confirmed): in every table returned by `generate_metrics_data`
the `conversion_rate` field lies in `[0, 1]`, and in every table returned by
`generate_cohort_data` the `retention_rate` field lies in `[0, 1]` — the
clamps `min(1, max(0, ·))` at source lines 166 and 192 are unconditional. -/
theorem C5_rates_clamped :
    (∀ (sin2pi : ℚ → ℚ) (clock : ℕ → ℚ) (num_days : ℤ) (b : Bool) (g : NpRandom),
      ∀ r ∈ (generate_metrics_data sin2pi clock num_days b g).1,
        0 ≤ r.conversion_rate ∧ r.conversion_rate ≤ 1)
    ∧ (∀ (clock : ℕ → ℚ) (num_cohorts : ℤ) (g : NpRandom)
        (rows : List CohortRow) (gOut : NpRandom),
        generate_cohort_data clock num_cohorts g = .ok (rows, gOut) →
        ∀ r ∈ rows, 0 ≤ r.retention_rate ∧ r.retention_rate ≤ 1) := by
  constructor
  · intro sin2pi clock num_days b g r hr
    exact metricsLoop_conversion sin2pi b _ 0 [] g (by simp) r hr
  · intro clock num_cohorts g rows gOut h r hr
    rw [generate_cohort_data_ok clock num_cohorts g rows gOut h] at hr
    exact cohortOuter_retention _ [] g (by simp) r hr

set_option maxRecDepth 100000 in
/-- Witness for C5 at concrete calls: the first metrics row and the first
cohort row have their rates inside `[0, 1]`. -/
theorem C5_rates_clamped_witness :
    (0 ≤ ((generate_metrics_data sinId clock0 1 false g0).1.getD 0 metricsRow0).conversion_rate
      ∧ ((generate_metrics_data sinId clock0 1 false g0).1.getD 0 metricsRow0).conversion_rate ≤ 1)
    ∧ (0 ≤ ((tableOf (generate_cohort_data clock0 1 g0)).getD 0 ⟨0, 0, 0, 0, 0⟩).retention_rate
      ∧ ((tableOf (generate_cohort_data clock0 1 g0)).getD 0 ⟨0, 0, 0, 0, 0⟩).retention_rate ≤ 1) := by
  constructor
  · exact C5_rates_clamped.1 sinId clock0 1 false g0 _ (by with_unfolding_all decide)
  · cases hok : generate_cohort_data clock0 1 g0 with
    | error m =>
      have hb : okOf (generate_cohort_data clock0 1 g0) = true := by
        with_unfolding_all decide
      rw [hok] at hb
      simp [okOf] at hb
    | ok p =>
      have hmem : ((tableOf (generate_cohort_data clock0 1 g0)).getD 0 ⟨0, 0, 0, 0, 0⟩)
          ∈ tableOf (generate_cohort_data clock0 1 g0) := by
        with_unfolding_all decide
      rw [hok] at hmem
      simp only [tableOf] at hmem
      simp only [tableOf]
      exact C5_rates_clamped.2 clock0 1 g0 p.1 p.2 hok _ hmem

/-- Claim C6 as stated is false: `pd.date_range(now - num_days, now, freq=D)`
includes both endpoints, so `generate_metrics_data(num_days=1)` (with both
`now` readings equal) returns two rows, not one. -/
theorem C6_counterexample :
    ¬ ((generate_metrics_data sinId clock0 1 false g0).1.length = 1) := by
  with_unfolding_all decide

/-- Claim C6 (amended): for every `num_days = N ≥ 0`, when the two `now`
readings of the call lie less than a day apart (the second not before the
first), `generate_metrics_data` returns exactly `N + 1` rows — one per day
of the inclusive range from `now - N` days to `now`. -/
theorem C6_amended_row_count (sin2pi : ℚ → ℚ) (clock : ℕ → ℚ) (num_days : ℤ)
    (b : Bool) (g : NpRandom) (h0 : 0 ≤ num_days)
    (hc0 : 0 ≤ clock 1 - clock 0) (hc1 : clock 1 - clock 0 < 1) :
    (generate_metrics_data sin2pi clock num_days b g).1.length = num_days.toNat + 1 :=
  generate_metrics_data_length sin2pi clock num_days b g h0 hc0 hc1

/-- Witness for C6 (amended): with `num_days = 2` and coincident clock
readings the table has 3 rows. -/
theorem C6_amended_row_count_witness :
    (generate_metrics_data sinId clock0 2 false g0).1.length = (2 : ℤ).toNat + 1 :=
  C6_amended_row_count sinId clock0 2 false g0 (by norm_num)
    (by norm_num [clock0]) (by norm_num [clock0])

/-- Claim C1 as stated is false for the cohort generator: the call with
`num_cohorts = 1` returns normally, but its table has 12 rows (one per
tracked month), not 1. -/
theorem C1_cohort_counterexample :
    okOf (generate_cohort_data clock0 1 g0) = true
    ∧ ¬ ((tableOf (generate_cohort_data clock0 1 g0)).length = 1) := by
  with_unfolding_all decide

/-- Claim C1 (amended): a table returned by `generate_time_series_data` has
exactly `|dates| × num_categories` rows; tables returned by
`generate_sales_data` and `generate_customer_data` have exactly the
requested number of rows; a table returned by `generate_cohort_data` has
exactly `12 × num_cohorts` rows (12 tracked months per cohort). -/
theorem C1_amended_row_counts :
    (∀ (sin2pi : ℚ → ℚ) (clock : ℕ → ℚ) (sd ed : Option ℚ) (freq : String)
        (nc : ℤ) (g : NpRandom) (step : ℚ) (rows : List TsRow) (gOut : NpRandom),
        parseFreq freq = .ok step →
        generate_time_series_data sin2pi clock sd ed freq nc g = .ok (rows, gOut) →
        rows.length
          = (dateRange (sd.getD (clock 0 - 90)) (ed.getD (clock 1)) step).length * nc.toNat)
    ∧ (∀ (mt : ℕ → ℕ → ℚ) (clock : ℕ → ℚ) (nr np nrg : ℤ) (g : NpRandom)
        (rows : List SalesRow) (gOut : NpRandom),
        generate_sales_data mt clock nr np nrg g = .ok (rows, gOut) →
        rows.length = nr.toNat)
    ∧ (∀ (mt : ℕ → ℕ → ℚ) (clock : ℕ → ℚ) (nc : ℤ) (g : NpRandom)
        (rows : List CustomerRow) (gOut : NpRandom),
        generate_customer_data mt clock nc g = .ok (rows, gOut) →
        rows.length = nc.toNat)
    ∧ (∀ (clock : ℕ → ℚ) (nc : ℤ) (g : NpRandom)
        (rows : List CohortRow) (gOut : NpRandom),
        generate_cohort_data clock nc g = .ok (rows, gOut) →
        rows.length = 12 * nc.toNat) := by
  refine ⟨?_, ?_, ?_, ?_⟩
  · intro sin2pi clock sd ed freq nc g step rows gOut hf h
    rw [generate_time_series_data_ok sin2pi clock sd ed freq nc g step rows gOut hf h]
    rw [tsBuiltAll_length]
    simp
  · intro mt clock nr np nrg g rows gOut h
    have hp := (generate_sales_data_perm mt clock nr np nrg g rows gOut h).length_eq
    rw [hp]
    simp
  · intro mt clock nc g rows gOut h
    rw [generate_customer_data_ok mt clock nc g rows gOut h]
    simp
  · intro clock nc g rows gOut h
    rw [generate_cohort_data_ok clock nc g rows gOut h]
    rw [cohortOuter_length]
    simp [dateRangeMS]

set_option maxRecDepth 100000 in
/-- Witness for C1 (amended) at concrete calls to all four generators. -/
theorem C1_amended_row_counts_witness :
    (tableOf (generate_time_series_data sinId clock0 (some 0) (some 2) "D" 3 g0)).length = 9
    ∧ (tableOf (generate_sales_data mt0 clock0 2 20 5 g0)).length = 2
    ∧ (tableOf (generate_customer_data mt0 clock0 2 g0)).length = 2
    ∧ (tableOf (generate_cohort_data clock0 2 g0)).length = 24 := by
  refine ⟨?_, ?_, ?_, ?_⟩
  · cases hok : generate_time_series_data sinId clock0 (some 0) (some 2) "D" 3 g0 with
    | error m =>
      have hb : okOf (generate_time_series_data sinId clock0 (some 0) (some 2) "D" 3 g0)
          = true := by with_unfolding_all decide
      rw [hok] at hb
      simp [okOf] at hb
    | ok p =>
      have h := C1_amended_row_counts.1 sinId clock0 (some 0) (some 2) "D" 3 g0 1
        p.1 p.2 rfl hok
      simp only [tableOf]
      rw [h]
      with_unfolding_all decide
  · cases hok : generate_sales_data mt0 clock0 2 20 5 g0 with
    | error m =>
      have hb : okOf (generate_sales_data mt0 clock0 2 20 5 g0) = true := by
        with_unfolding_all decide
      rw [hok] at hb
      simp [okOf] at hb
    | ok p =>
      have h := C1_amended_row_counts.2.1 mt0 clock0 2 20 5 g0 p.1 p.2 hok
      simp only [tableOf]
      rw [h]
      decide
  · cases hok : generate_customer_data mt0 clock0 2 g0 with
    | error m =>
      have hb : okOf (generate_customer_data mt0 clock0 2 g0) = true := by
        with_unfolding_all decide
      rw [hok] at hb
      simp [okOf] at hb
    | ok p =>
      have h := C1_amended_row_counts.2.2.1 mt0 clock0 2 g0 p.1 p.2 hok
      simp only [tableOf]
      rw [h]
      decide
  · cases hok : generate_cohort_data clock0 2 g0 with
    | error m =>
      have hb : okOf (generate_cohort_data clock0 2 g0) = true := by
        with_unfolding_all decide
      rw [hok] at hb
      simp [okOf] at hb
    | ok p =>
      have h := C1_amended_row_counts.2.2.2 clock0 2 g0 p.1 p.2 hok
      simp only [tableOf]
      rw [h]
      decide

/-- Claim C7 as stated is false: `generate_time_series_data` called with the
out-of-range configuration `num_categories = -1` does not fail — it returns
normally with an (empty) table, because Python's `range` silently yields
nothing for a negative count and no generator validates its arguments. -/
theorem C7_counterexample :
    okOf (generate_time_series_data sinId clock0 none none "D" (-1) g0) = true
    ∧ tableOf (generate_time_series_data sinId clock0 none none "D" (-1) g0) = [] := by
  with_unfolding_all decide

/-- Claim C7 (amended): no generator validates its arguments; error behavior
on out-of-range configuration is inherited from the libraries and is not
uniform.  A negative `num_records` makes `generate_sales_data` raise
numpy's size error with no output; a negative `num_cohorts` makes
`generate_cohort_data` raise the `pd.date_range` period error; a malformed
frequency code makes `generate_time_series_data` raise the `pd.date_range`
frequency error; but a non-positive `num_categories` produces a normal,
empty table. -/
theorem C7_amended_error_behavior :
    (∀ (mt : ℕ → ℕ → ℚ) (clock : ℕ → ℚ) (nr np nrg : ℤ) (g : NpRandom),
        0 < np → nr < 0 →
        generate_sales_data mt clock nr np nrg g
          = .error "negative dimensions are not allowed")
    ∧ (∀ (clock : ℕ → ℚ) (nc : ℤ) (g : NpRandom), nc < 0 →
        generate_cohort_data clock nc g
          = .error "Number of samples must be non-negative")
    ∧ (∀ (sin2pi : ℚ → ℚ) (clock : ℕ → ℚ) (sd ed : Option ℚ) (freq : String)
        (nc : ℤ) (g : NpRandom) (m : String), parseFreq freq = .error m →
        generate_time_series_data sin2pi clock sd ed freq nc g = .error m)
    ∧ (∀ (sin2pi : ℚ → ℚ) (clock : ℕ → ℚ) (sd ed : Option ℚ) (freq : String)
        (nc : ℤ) (g : NpRandom) (step : ℚ), nc ≤ 0 → parseFreq freq = .ok step →
        generate_time_series_data sin2pi clock sd ed freq nc g = .ok ([], g)) := by
  refine ⟨?_, ?_, ?_, ?_⟩
  · intro mt clock nr np nrg g hnp hnr
    unfold generate_sales_data
    simp only [npSeed, List.length_map, List.length_range]
    rw [if_neg (by omega), if_pos hnr]
  · intro clock nc g hnc
    unfold generate_cohort_data
    rw [if_pos hnc]
  · intro sin2pi clock sd ed freq nc g m hf
    unfold generate_time_series_data
    rw [hf]
  · intro sin2pi clock sd ed freq nc g step hn hf
    exact ts_nonpos_cats sin2pi clock sd ed freq nc g step hn hf

/-- Witness for C7 (amended) at concrete out-of-range calls. -/
theorem C7_amended_error_behavior_witness :
    (generate_sales_data mt0 clock0 (-1) 20 5 g0
      = .error "negative dimensions are not allowed")
    ∧ (generate_cohort_data clock0 (-1) g0
      = .error "Number of samples must be non-negative")
    ∧ (generate_time_series_data sinId clock0 none none "X" 4 g0
      = .error ("Invalid frequency: " ++ "X"))
    ∧ (generate_time_series_data sinId clock0 (some 0) (some 1) "D" 0 g0
      = .ok ([], g0)) :=
  ⟨C7_amended_error_behavior.1 mt0 clock0 (-1) 20 5 g0 (by norm_num) (by norm_num),
   C7_amended_error_behavior.2.1 clock0 (-1) g0 (by norm_num),
   C7_amended_error_behavior.2.2.1 sinId clock0 none none "X" 4 g0
     ("Invalid frequency: " ++ "X") rfl,
   C7_amended_error_behavior.2.2.2 sinId clock0 (some 0) (some 1) "D" 0 g0 1
     (by norm_num) rfl⟩

/-- Claim C8 as stated is false for `generate_metrics_data`: requesting zero
days returns a 1-row table, not an empty one, because the daily range from
`now` to `now` still contains one point. -/
theorem C8_counterexample :
    ¬ ((generate_metrics_data sinId clock0 0 false g0).1 = []) := by
  with_unfolding_all decide

/-- Claim C8 (amended): requesting zero entities or categories never raises:
`generate_time_series_data` with zero categories, `generate_sales_data` with
zero records (and non-degenerate label pools), `generate_customer_data`
with zero customers and `generate_cohort_data` with zero cohorts all return
empty tables; `generate_metrics_data` with zero days also returns normally
but with a single row (when the two `now` readings lie within a day). -/
theorem C8_amended_zero_counts :
    (∀ (sin2pi : ℚ → ℚ) (clock : ℕ → ℚ) (sd ed : Option ℚ) (freq : String)
        (g : NpRandom) (step : ℚ), parseFreq freq = .ok step →
        generate_time_series_data sin2pi clock sd ed freq 0 g = .ok ([], g))
    ∧ (∀ (mt : ℕ → ℕ → ℚ) (clock : ℕ → ℚ) (np nrg : ℤ) (g : NpRandom),
        0 < np → 0 < nrg →
        okOf (generate_sales_data mt clock 0 np nrg g) = true
        ∧ tableOf (generate_sales_data mt clock 0 np nrg g) = [])
    ∧ (∀ (mt : ℕ → ℕ → ℚ) (clock : ℕ → ℚ) (g : NpRandom),
        okOf (generate_customer_data mt clock 0 g) = true
        ∧ tableOf (generate_customer_data mt clock 0 g) = [])
    ∧ (∀ (clock : ℕ → ℚ) (g : NpRandom),
        okOf (generate_cohort_data clock 0 g) = true
        ∧ tableOf (generate_cohort_data clock 0 g) = [])
    ∧ (∀ (sin2pi : ℚ → ℚ) (clock : ℕ → ℚ) (b : Bool) (g : NpRandom),
        0 ≤ clock 1 - clock 0 → clock 1 - clock 0 < 1 →
        (generate_metrics_data sin2pi clock 0 b g).1.length = 1) := by
  refine ⟨?_, ?_, ?_, ?_, ?_⟩
  · intro sin2pi clock sd ed freq g step hf
    exact ts_nonpos_cats sin2pi clock sd ed freq 0 g step (le_refl 0) hf
  · intro mt clock np nrg g hnp hnrg
    unfold generate_sales_data
    simp only [npSeed, List.length_map, List.length_range]
    rw [if_neg (by omega), if_neg (by omega), if_neg (by omega)]
    exact ⟨rfl, rfl⟩
  · intro mt clock g
    unfold generate_customer_data
    rw [if_neg (by omega)]
    exact ⟨rfl, rfl⟩
  · intro clock g
    unfold generate_cohort_data
    rw [if_neg (by omega)]
    exact ⟨rfl, rfl⟩
  · intro sin2pi clock b g hc0 hc1
    have := generate_metrics_data_length sin2pi clock 0 b g (le_refl 0) hc0 hc1
    simpa using this

/-- Witness for C8 (amended) at concrete zero-count calls. -/
theorem C8_amended_zero_counts_witness :
    (generate_time_series_data sinId clock0 none none "D" 0 g0 = .ok ([], g0))
    ∧ (okOf (generate_sales_data mt0 clock0 0 20 5 g0) = true
      ∧ tableOf (generate_sales_data mt0 clock0 0 20 5 g0) = [])
    ∧ (okOf (generate_customer_data mt0 clock0 0 g0) = true
      ∧ tableOf (generate_customer_data mt0 clock0 0 g0) = [])
    ∧ (okOf (generate_cohort_data clock0 0 g0) = true
      ∧ tableOf (generate_cohort_data clock0 0 g0) = [])
    ∧ ((generate_metrics_data sinId clock0 0 false g0).1.length = 1) :=
  ⟨C8_amended_zero_counts.1 sinId clock0 none none "D" g0 1 rfl,
   C8_amended_zero_counts.2.1 mt0 clock0 20 5 g0 (by norm_num) (by norm_num),
   C8_amended_zero_counts.2.2.1 mt0 clock0 g0,
   C8_amended_zero_counts.2.2.2.1 clock0 g0,
   C8_amended_zero_counts.2.2.2.2 sinId clock0 false g0 (by norm_num [clock0])
     (by norm_num [clock0])⟩

/-- Claim C4 (confirmed): in every table returned by `generate_sales_data`,
each row satisfies `total_amount = quantity * unit_price`, has a `discount`
drawn from the weighted set `{0, 0.05, 0.10, 0.15, 0.20}` (weights 0.5,
0.2, 0.15, 0.1, 0.05 via the cumulative-weight index), and satisfies
`final_amount = total_amount * (1 - discount)`.  The membership uses that
every uniform draw of the seeded source lies in `[0, 1)`. -/
theorem C4_sales_derived_fields (mt : ℕ → ℕ → ℚ) (clock : ℕ → ℚ)
    (nr np nrg : ℤ) (g : NpRandom) (rows : List SalesRow) (gOut : NpRandom)
    (hu : ∀ i, 0 ≤ mt 42 i ∧ mt 42 i < 1)
    (h : generate_sales_data mt clock nr np nrg g = .ok (rows, gOut)) :
    ∀ r ∈ rows,
      r.total_amount = (r.quantity : ℚ) * r.unit_price
      ∧ r.discount ∈ ([0, 1/20, 1/10, 3/20, 1/5] : List ℚ)
      ∧ r.final_amount = r.total_amount * (1 - r.discount) := by
  intro r hr
  have hperm := generate_sales_data_perm mt clock nr np nrg g rows gOut h
  rw [hperm.mem_iff] at hr
  rcases List.mem_map.mp hr with ⟨i, _hi, rfl⟩
  refine ⟨rfl, ?_, rfl⟩
  unfold mkSalesRow weightedChoice
  have hsum : ([1/2, 1/5, 3/20, 1/10, 1/20] : List ℚ).sum = 1 := by norm_num
  have hidx := cumIndex_lt [1/2, 1/5, 3/20, 1/10, 1/20] (mt 42 (6 * nr.toNat + i))
    (hu (6 * nr.toNat + i)).1 (by rw [hsum]; exact (hu (6 * nr.toNat + i)).2)
  rw [List.getD_eq_getElem _ _ (by simpa using hidx)]
  exact List.getElem_mem _

set_option maxRecDepth 100000 in
/-- Witness for C4: the first row of a concrete one-record call satisfies
all three derived-field properties. -/
theorem C4_sales_derived_fields_witness :
    ((tableOf (generate_sales_data mt0 clock0 1 20 5 g0)).getD 0 salesRow0).total_amount
      = (((tableOf (generate_sales_data mt0 clock0 1 20 5 g0)).getD 0 salesRow0).quantity : ℚ)
        * ((tableOf (generate_sales_data mt0 clock0 1 20 5 g0)).getD 0 salesRow0).unit_price
    ∧ ((tableOf (generate_sales_data mt0 clock0 1 20 5 g0)).getD 0 salesRow0).discount
        ∈ ([0, 1/20, 1/10, 3/20, 1/5] : List ℚ)
    ∧ ((tableOf (generate_sales_data mt0 clock0 1 20 5 g0)).getD 0 salesRow0).final_amount
      = ((tableOf (generate_sales_data mt0 clock0 1 20 5 g0)).getD 0 salesRow0).total_amount
        * (1 - ((tableOf (generate_sales_data mt0 clock0 1 20 5 g0)).getD 0 salesRow0).discount) := by
  cases hok : generate_sales_data mt0 clock0 1 20 5 g0 with
  | error m =>
    have hb : okOf (generate_sales_data mt0 clock0 1 20 5 g0) = true := by
      with_unfolding_all decide
    rw [hok] at hb
    simp [okOf] at hb
  | ok p =>
    have hmem : ((tableOf (generate_sales_data mt0 clock0 1 20 5 g0)).getD 0 salesRow0)
        ∈ tableOf (generate_sales_data mt0 clock0 1 20 5 g0) := by
      with_unfolding_all decide
    rw [hok] at hmem
    simp only [tableOf] at hmem
    simp only [tableOf]
    exact C4_sales_derived_fields mt0 clock0 1 20 5 g0 p.1 p.2
      (fun i => ⟨le_refl 0, by norm_num [mt0]⟩) hok _ hmem

/-- Claim C2 as stated is false for `generate_metrics_data`: its seasonal
argument is the row's sequence index divided by 7, not the timestamp's day
of year divided by 7.  At a concrete call (identity in place of
`sin (2π·)`, all-zero tape so the noise term is 0, epoch clock) the first
row's stored revenue differs from the value the specification's formula
assigns to that row's own timestamp. -/
theorem C2_counterexample :
    ¬ (((generate_metrics_data sinId clock0 7 false g0).1.getD 0 metricsRow0).revenue
        = max 0 (specMetricsRawValue sinId
            (((generate_metrics_data sinId clock0 7 false g0).1.getD 0 metricsRow0).date)
            0 0)) := by
  with_unfolding_all decide

/-- Claim C2 (amended): before clamping, row `k` of
`generate_time_series_data` carries the value
`1000 + 0.5·k + 100·sin(2π·dayofyear(date)/365) + 50·z_k` with `k` the
global (timestamp, category) sequence index and `z_k` the row's noise draw;
and row `k` of `generate_metrics_data` (anomalies disabled) carries
`1000 + 5·k + 100·sin(2π·k/7) + 50·z_k`, whose seasonal argument is the
sequence index `k`, not a day of year. -/
theorem C2_amended_raw_value_formula :
    (∀ (sin2pi : ℚ → ℚ) (clock : ℕ → ℚ) (sd ed : Option ℚ) (freq : String)
        (nc : ℤ) (g : NpRandom) (step : ℚ) (rows : List TsRow) (gOut : NpRandom)
        (k : ℕ) (dflt : TsRow),
        parseFreq freq = .ok step →
        generate_time_series_data sin2pi clock sd ed freq nc g = .ok (rows, gOut) →
        k < rows.length →
        (rows.getD k dflt).value
          = max 0 (1000 + (k : ℚ) * (1 / 2)
              + 100 * sin2pi ((dayofyear (rows.getD k dflt).date : ℚ) / 365)
              + 50 * g.tape (g.pos + 3 * k)))
    ∧ (∀ (sin2pi : ℚ → ℚ) (clock : ℕ → ℚ) (num_days : ℤ) (g : NpRandom)
        (k : ℕ) (dflt : MetricsRow),
        k < (generate_metrics_data sin2pi clock num_days false g).1.length →
        ((generate_metrics_data sin2pi clock num_days false g).1.getD k dflt).revenue
          = max 0 (1000 + (k : ℚ) * 5 + 100 * sin2pi ((k : ℚ) / 7)
              + 50 * g.tape (g.pos + 5 * k))) := by
  constructor
  · intro sin2pi clock sd ed freq nc g step rows gOut k dflt hf h hk
    rw [generate_time_series_data_ok sin2pi clock sd ed freq nc g step rows gOut hf h] at hk ⊢
    rw [tsBuiltAll_length] at hk
    have hv := tsBuiltAll_getD sin2pi g.tape dflt
      (dateRange (sd.getD (clock 0 - 90)) (ed.getD (clock 1)) step)
      ((List.range nc.toNat).map (fun i => "Category_" ++ toString (i + 1)))
      0 g.pos k hk
    simpa using hv
  · intro sin2pi clock num_days g k dflt hk
    unfold generate_metrics_data at hk ⊢
    rw [metricsLoop_eq] at hk ⊢
    simp only [List.nil_append] at hk ⊢
    rw [metricsBuilt_length] at hk
    rw [metricsBuilt_getD sin2pi g.tape dflt _ 0 g.pos k hk]
    simp [metricsRawValue]

set_option maxRecDepth 100000 in
/-- Witness for C2 (amended): the formulas evaluated at the first row of
concrete time-series and metrics calls. -/
theorem C2_amended_raw_value_formula_witness :
    (((tableOf (generate_time_series_data sinId clock0 (some 0) (some 1) "D" 1 g0)).getD 0
        tsRow0).value
      = max 0 (1000 + (0 : ℚ) * (1 / 2)
          + 100 * sinId ((dayofyear (((tableOf (generate_time_series_data sinId clock0
              (some 0) (some 1) "D" 1 g0)).getD 0 tsRow0).date) : ℚ) / 365)
          + 50 * g0.tape (g0.pos + 3 * 0)))
    ∧ (((generate_metrics_data sinId clock0 2 false g0).1.getD 1 metricsRow0).revenue
      = max 0 (1000 + (1 : ℚ) * 5 + 100 * sinId ((1 : ℚ) / 7)
          + 50 * g0.tape (g0.pos + 5 * 1))) := by
  constructor
  · cases hok : generate_time_series_data sinId clock0 (some 0) (some 1) "D" 1 g0 with
    | error m =>
      have hb : okOf (generate_time_series_data sinId clock0 (some 0) (some 1) "D" 1 g0)
          = true := by with_unfolding_all decide
      rw [hok] at hb
      simp [okOf] at hb
    | ok p =>
      have hlen : 0 < (tableOf (generate_time_series_data sinId clock0
          (some 0) (some 1) "D" 1 g0)).length := by with_unfolding_all decide
      rw [hok] at hlen
      simp only [tableOf] at hlen
      simp only [tableOf]
      have := C2_amended_raw_value_formula.1 sinId clock0 (some 0) (some 1) "D" 1 g0 1
        p.1 p.2 0 tsRow0 rfl hok hlen
      simpa using this
  · have hlen : 1 < (generate_metrics_data sinId clock0 2 false g0).1.length := by
      with_unfolding_all decide
    exact C2_amended_raw_value_formula.2 sinId clock0 2 g0 1 metricsRow0 hlen

set_option maxRecDepth 1000000 in
/-- Claim C3 as stated is false: the sort at source line 98 is pandas's
default quicksort kind, which is not stable.  At a concrete call of
`generate_sales_data(num_records=100)` in which every generated row carries
the same timestamp (all-zero tape and constant clock), the returned table
— trivially "sorted by date descending" — does not keep equal-timestamp
rows in generation (`transaction_id`) order: numpy's introspective sort
scrambles the 100-element all-equal index array, and the rows at output
positions 2 and 3 carry `TXN_000073` before `TXN_000072`. -/
theorem C3_counterexample :
    ¬ ((tableOf salesCxCall).length = 100
        ∧ List.Pairwise (fun a b : SalesRow => b.date ≤ a.date) (tableOf salesCxCall)
        ∧ List.Pairwise (fun a b : SalesRow => a.date = b.date →
            a.transaction_id ≤ b.transaction_id) (tableOf salesCxCall)) := by
  intro hcl
  obtain ⟨hlen, -, hstable⟩ := hcl
  have h2 : 2 < (tableOf salesCxCall).length := by rw [hlen]; norm_num
  have h3 : 3 < (tableOf salesCxCall).length := by rw [hlen]; norm_num
  have h23 := List.pairwise_iff_getElem.mp hstable 2 3 h2 h3 (by norm_num)
  rw [← List.getD_eq_getElem (tableOf salesCxCall) salesRow0 h2,
      ← List.getD_eq_getElem (tableOf salesCxCall) salesRow0 h3] at h23
  have hd : ((tableOf salesCxCall).getD 2 salesRow0).date
      = ((tableOf salesCxCall).getD 3 salesRow0).date := by
    with_unfolding_all decide
  have hnot : ¬ (((tableOf salesCxCall).getD 2 salesRow0).transaction_id
      ≤ ((tableOf salesCxCall).getD 3 salesRow0).transaction_id) := by
    with_unfolding_all decide
  exact hnot (h23 hd)

/-- Claim C3 (amended): `generate_sales_data(num_records=100)` returns
exactly the 100 generated transaction records, reordered by pandas's
descending quicksort indexer on the `date` column; rows with equal
timestamps are not guaranteed to appear in generation order (the default
sort kind is not stable). -/
theorem C3_amended_reordered_rows (mt : ℕ → ℕ → ℚ) (clock : ℕ → ℚ)
    (g : NpRandom) (rows : List SalesRow) (gOut : NpRandom)
    (h : generate_sales_data mt clock 100 20 5 g = .ok (rows, gOut)) :
    rows.length = 100
    ∧ rows.Perm ((List.range 100).map (mkSalesRow clock
        ((List.range 20).map (fun i => "Product_" ++ toString (i + 1)))
        ((List.range 5).map (fun i => "Region_" ++ toString (i + 1)))
        ["Credit Card", "Debit Card", "PayPal", "Bank Transfer"] (mt 42) 100)) := by
  have hp := generate_sales_data_perm mt clock 100 20 5 g rows gOut h
  constructor
  · rw [hp.length_eq]
    simp
  · exact hp

set_option maxRecDepth 1000000 in
/-- Witness for C3 (amended) at the concrete all-equal-timestamp call. -/
theorem C3_amended_reordered_rows_witness :
    (tableOf salesCxCall).length = 100
    ∧ (tableOf salesCxCall).Perm ((List.range 100).map (mkSalesRow clock0
        ((List.range 20).map (fun i => "Product_" ++ toString (i + 1)))
        ((List.range 5).map (fun i => "Region_" ++ toString (i + 1)))
        ["Credit Card", "Debit Card", "PayPal", "Bank Transfer"] (mt0 42) 100)) := by
  cases hok : salesCxCall with
  | error m =>
    have hb : okOf salesCxCall = true := by
      with_unfolding_all decide
    rw [hok] at hb
    simp [okOf] at hb
  | ok p =>
    have hok2 : generate_sales_data mt0 clock0 100 20 5 g0 = .ok (p.1, p.2) := by
      rw [← hok]
      rfl
    have h := C3_amended_reordered_rows mt0 clock0 g0 p.1 p.2 hok2
    simp only [tableOf]
    exact h

end DataGen
